import Mathlib

/-!
Formal model of the habit tracker's core engine: calendar-date rules,
the keyed record store over habit and task rows, habit streak mutation,
task-series creation and rollover, and the analytics aggregations.
Python `datetime.date` values are modelled by a year/month/day structure
over the proleptic Gregorian calendar; `timedelta` addition is modelled
by iterating the calendar successor.  All machine strings (statuses,
importance, recurrence) stay strings, as in the source.
-/

namespace HabitTracker

/-- Calendar date (year, month, day), the model of Python `datetime.date`
parsed from a `YYYY-MM-DD` string. -/
structure Date where
  year : Nat
  month : Nat
  day : Nat
deriving DecidableEq, Repr

/-- Gregorian leap-year rule, as implemented by Python's `calendar.isleap`. -/
def isLeapYear (y : Nat) : Bool :=
  (y % 4 == 0 && y % 100 != 0) || y % 400 == 0

/-- Number of days in a month of a given year. -/
def daysInMonth (y m : Nat) : Nat :=
  if m = 2 then (if isLeapYear y then 29 else 28)
  else if m = 4 ∨ m = 6 ∨ m = 9 ∨ m = 11 then 30
  else 31

/-- A structurally valid calendar date (what `datetime.strptime` accepts). -/
def ValidDate (d : Date) : Prop :=
  1 ≤ d.year ∧ 1 ≤ d.month ∧ d.month ≤ 12 ∧ 1 ≤ d.day ∧ d.day ≤ daysInMonth d.year d.month

instance (d : Date) : Decidable (ValidDate d) := by
  unfold ValidDate; infer_instance

/-- Calendar successor: the next day, carrying over month and year ends. -/
def nextDay (d : Date) : Date :=
  if d.day < daysInMonth d.year d.month then ⟨d.year, d.month, d.day + 1⟩
  else if d.month < 12 then ⟨d.year, d.month + 1, 1⟩
  else ⟨d.year + 1, 1, 1⟩

/-- Calendar predecessor, inverse of `nextDay` on valid dates. -/
def prevDay (d : Date) : Date :=
  if 1 < d.day then ⟨d.year, d.month, d.day - 1⟩
  else if 1 < d.month then ⟨d.year, d.month - 1, daysInMonth d.year (d.month - 1)⟩
  else ⟨d.year - 1, 12, 31⟩

/-- Model of `date + timedelta(days = n)`: iterate the calendar successor. -/
def addDays : Nat → Date → Date
  | 0, d => d
  | n + 1, d => addDays n (nextDay d)

/-- Model of `date - timedelta(days = n)`: iterate the calendar predecessor. -/
def subDays : Nat → Date → Date
  | 0, d => d
  | n + 1, d => subDays n (prevDay d)

/-- Days in all years strictly before year `y` (Gregorian), as in
CPython's `datetime._days_before_year`. -/
def daysBeforeYear (y : Nat) : Nat :=
  365 * (y - 1) + (y - 1) / 4 - (y - 1) / 100 + (y - 1) / 400

/-- Days in the months of year `y` strictly before month `m`. -/
def daysBeforeMonth (y : Nat) : Nat → Nat
  | 0 => 0
  | 1 => 0
  | m + 1 => daysBeforeMonth y m + daysInMonth y m

/-- Proleptic-Gregorian ordinal of a date (0001-01-01 has ordinal 1),
the model of Python's `date.toordinal`. -/
def toOrdinal (d : Date) : Nat :=
  daysBeforeYear d.year + daysBeforeMonth d.year d.month + d.day

/-- Weekday with Monday = 0, as Python's `date.weekday()`
(0001-01-01 is a Monday). -/
def dateWeekday (d : Date) : Nat := (toOrdinal d + 6) % 7

/-- Strict chronological comparison of dates; Python compares `date`
objects lexicographically on (year, month, day). -/
def dateLtb (a b : Date) : Bool :=
  a.year < b.year ||
    (a.year == b.year &&
      (a.month < b.month || (a.month == b.month && a.day < b.day)))

/-- Non-strict chronological comparison of dates. -/
def dateLeb (a b : Date) : Bool := dateLtb a b || a == b

theorem dateLtb_false_iff_dateLeb (a b : Date) :
    dateLtb a b = false ↔ dateLeb b a = true := by
  cases a with
  | mk ay am ad =>
    cases b with
    | mk by' bm bd =>
      simp only [dateLtb, dateLeb, Bool.or_eq_true, Bool.and_eq_true, Bool.or_eq_false_iff,
        Bool.and_eq_false_iff, decide_eq_true_eq, decide_eq_false_iff_not, beq_iff_eq,
        Date.mk.injEq, bne_iff_ne, ne_eq, Bool.not_eq_true]
      constructor
      · rintro h
        by_cases h1 : ay = by' <;> by_cases h2 : am = bm <;> by_cases h3 : ad = bd <;>
          simp_all <;> omega
      · rintro h
        by_cases h1 : ay = by' <;> by_cases h2 : am = bm <;> by_cases h3 : ad = bd <;>
          simp_all <;> omega

theorem daysInMonth_pos (y m : Nat) : 1 ≤ daysInMonth y m := by
  unfold daysInMonth
  split
  · split <;> omega
  · split <;> omega

theorem nextDay_valid {d : Date} (h : ValidDate d) : ValidDate (nextDay d) := by
  have h1 := daysInMonth_pos d.year (d.month + 1)
  have h2 := daysInMonth_pos (d.year + 1) 1
  have h3 := daysInMonth_pos d.year d.month
  unfold ValidDate at *
  unfold nextDay
  split
  · dsimp only
    omega
  · split <;> dsimp only <;> omega

theorem daysBeforeMonth_succ (y m : Nat) (h : 1 ≤ m) :
    daysBeforeMonth y (m + 1) = daysBeforeMonth y m + daysInMonth y m := by
  obtain ⟨m', rfl⟩ : ∃ m', m = m' + 1 := ⟨m - 1, by omega⟩
  rfl

theorem isLeapYear_iff (y : Nat) :
    isLeapYear y = true ↔ ((y % 4 = 0 ∧ ¬ y % 100 = 0) ∨ y % 400 = 0) := by
  simp [isLeapYear, Bool.or_eq_true, Bool.and_eq_true]

theorem daysBeforeMonth_twelve (y : Nat) :
    daysBeforeMonth y 12 + 31 = 365 + (if isLeapYear y then 1 else 0) := by
  cases h : isLeapYear y <;>
    simp [daysBeforeMonth, daysInMonth, h]

theorem daysBeforeYear_succ (y : Nat) (hy : 1 ≤ y) :
    daysBeforeYear (y + 1) = daysBeforeYear y + 365 + (if isLeapYear y then 1 else 0) := by
  obtain ⟨x, rfl⟩ : ∃ x, y = x + 1 := ⟨y - 1, by omega⟩
  have hL := isLeapYear_iff (x + 1)
  unfold daysBeforeYear
  simp only [Nat.add_sub_cancel]
  rw [Nat.succ_div, Nat.succ_div, Nat.succ_div]
  simp only [hL]
  split_ifs <;> omega

/-- The calendar successor advances the absolute day number by exactly one:
this is the sense in which `nextDay` is correct across month and year
boundaries. -/
theorem toOrdinal_nextDay {d : Date} (h : ValidDate d) :
    toOrdinal (nextDay d) = toOrdinal d + 1 := by
  obtain ⟨hy, hm1, hm2, hd1, hd2⟩ := h
  unfold nextDay
  split
  · show daysBeforeYear d.year + daysBeforeMonth d.year d.month + (d.day + 1) =
      daysBeforeYear d.year + daysBeforeMonth d.year d.month + d.day + 1
    omega
  · split
    · next hfull hmon =>
      have hday : d.day = daysInMonth d.year d.month := by omega
      show daysBeforeYear d.year + daysBeforeMonth d.year (d.month + 1) + 1 =
        daysBeforeYear d.year + daysBeforeMonth d.year d.month + d.day + 1
      rw [daysBeforeMonth_succ d.year d.month hm1]
      omega
    · next hfull hmon =>
      have hm12 : d.month = 12 := by omega
      have hday : d.day = daysInMonth d.year d.month := by omega
      have hday31 : d.day = 31 := by
        rw [hday, hm12]; unfold daysInMonth; norm_num
      have h12 := daysBeforeMonth_twelve d.year
      have hsucc := daysBeforeYear_succ d.year hy
      show daysBeforeYear (d.year + 1) + daysBeforeMonth (d.year + 1) 1 + 1 =
        daysBeforeYear d.year + daysBeforeMonth d.year d.month + d.day + 1
      have h1 : daysBeforeMonth (d.year + 1) 1 = 0 := rfl
      rw [hm12]
      omega

theorem toOrdinal_addDays (n : Nat) :
    ∀ d : Date, ValidDate d →
      toOrdinal (addDays n d) = toOrdinal d + n ∧ ValidDate (addDays n d) := by
  induction n with
  | zero => intro d h; exact ⟨rfl, h⟩
  | succ n ih =>
    intro d h
    have hnext := nextDay_valid h
    have hord := toOrdinal_nextDay h
    obtain ⟨h1, h2⟩ := ih (nextDay d) hnext
    refine ⟨?_, h2⟩
    simp only [addDays] at *
    omega

/-! ## Date rules (src/utils/date_utils.py, src/controllers/task.py) -/

/-- Embedding of `utils.date_utils.get_next_date`: advance a date by the
recurrence interval, returning nothing for an unrecognized interval.
Parsing of the `YYYY-MM-DD` string is modelled by working on `Date`
values directly. -/
def get_next_date (d : Date) (rep : String) : Option Date :=
  if rep = "Daily" then some (addDays 1 d)
  else if rep = "Weekly" then some (addDays 7 d)
  else none

/-- Embedding of `TaskController.calculate_next_due_date`: same advance, but
an unrecognized interval falls through and returns the input date. -/
def calculate_next_due_date (rep : String) (current_due : Date) : Date :=
  if rep = "Daily" then addDays 1 current_due
  else if rep = "Weekly" then addDays 7 current_due
  else current_due

/-! ## Record store (src/database/operations.py, src/database/connector.py)

Habit and task rows mirror the two SQLite tables.  The `created`
timestamp columns take no part in any claim (they are display-only and
not part of any duplicate key), so they are omitted from the rows.
Row ids are assigned from a per-table counter, modelling SQLite rowid
assignment. -/

/-- A row of the `habit` table.  Field order follows the column order used
by tuple indexing in the source: id (0), name (1), category (2),
description (3), created (4, omitted), start (5), end (6, nullable),
importance (7), repeat (8), tasks (9), tasks_description (10),
streak (11), streak_reset_count (12), longest_streak (13). -/
structure HabitRow where
  id : Nat
  name : String
  category : String
  description : String
  start : Date
  stop : Option Date
  importance : String
  repeat_ : String
  tasks : Nat
  tasks_description : String
  streak : Nat
  streak_reset_count : Nat
  longest_streak : Nat
deriving DecidableEq, Repr

/-- A row of the `task` table: id (0), habit_id (1), task_number (2),
task_description (3), created (4, omitted), due_date (5), status (6). -/
structure TaskRow where
  id : Nat
  habit_id : Nat
  task_number : Nat
  task_description : String
  due_date : Date
  status : String
deriving DecidableEq, Repr

/-- The record store: the two tables plus the next row id for each,
modelling SQLite rowid assignment. -/
structure DB where
  habits : List HabitRow
  tasks : List TaskRow
  nextHabitId : Nat
  nextTaskId : Nat
deriving DecidableEq, Repr

/-- Attribute map passed to `create_data('habit', ...)` by
`HabitController.create_habit` (user fields; `created` and the
zero-initialized counters are added by `_prepare_habit_data` and the
column defaults). -/
structure HabitData where
  name : String
  category : String
  description : String
  start : Date
  stop : Date
  importance : String
  repeat_ : String
  tasks : Nat
  tasks_description : String
deriving DecidableEq, Repr

/-- Attribute map passed to `create_data('task', ...)`. -/
structure TaskData where
  habit_id : Nat
  task_number : Nat
  task_description : String
  due_date : Date
  status : String
deriving DecidableEq, Repr

/-- Model of `read_data('habit', set to id)` followed by taking the first row. -/
def findHabit (db : DB) (hid : Nat) : Option HabitRow :=
  db.habits.find? (fun h => h.id == hid)

/-- Model of `read_data('task', set to id)` followed by taking the first row. -/
def findTask (db : DB) (tid : Nat) : Option TaskRow :=
  db.tasks.find? (fun t => t.id == tid)

/-- Model of `read_data('task', habit_id and due_date)`: the tasks of one
series, in rowid order. -/
def tasksFor (db : DB) (hid : Nat) (due : Date) : List TaskRow :=
  db.tasks.filter (fun t => t.habit_id == hid && t.due_date == due)

/-- Duplicate condition for the `habit` table
(`DatabaseController._get_duplicate_conditions`): same name and
description. -/
def habitDup (db : DB) (name description : String) : Bool :=
  db.habits.any (fun h => h.name == name && h.description == description)

/-- Duplicate condition for the `task` table: same task_description,
habit_id, task_number and due_date. -/
def taskDup (db : DB) (td : TaskData) : Bool :=
  db.tasks.any (fun t =>
    t.task_description == td.task_description && t.habit_id == td.habit_id &&
      t.task_number == td.task_number && t.due_date == td.due_date)

/-- Embedding of `DatabaseController.create_data('habit', data)`:
reject duplicates with -1 (store unchanged), otherwise insert with the
next rowid; the streak counters start at 0 (`_prepare_habit_data` plus
the column defaults). -/
def create_data_habit (db : DB) (d : HabitData) : Int × DB :=
  if habitDup db d.name d.description then (-1, db)
  else
    (Int.ofNat db.nextHabitId,
      { db with
          habits := db.habits ++
            [{ id := db.nextHabitId, name := d.name, category := d.category,
               description := d.description, start := d.start, stop := some d.stop,
               importance := d.importance, repeat_ := d.repeat_, tasks := d.tasks,
               tasks_description := d.tasks_description, streak := 0,
               streak_reset_count := 0, longest_streak := 0 }],
          nextHabitId := db.nextHabitId + 1 })

/-- Embedding of `DatabaseController.create_data('task', data)`. -/
def create_data_task (db : DB) (td : TaskData) : Int × DB :=
  if taskDup db td then (-1, db)
  else
    (Int.ofNat db.nextTaskId,
      { db with
          tasks := db.tasks ++
            [{ id := db.nextTaskId, habit_id := td.habit_id,
               task_number := td.task_number,
               task_description := td.task_description,
               due_date := td.due_date, status := td.status }],
          nextTaskId := db.nextTaskId + 1 })

/-- Embedding of `DatabaseController.update_data('habit', id, cols)`:
check the row exists, then set the given columns on it.  Each caller
instantiates `upd` with the column assignment of its attribute dict. -/
def update_data_habit (db : DB) (hid : Nat) (upd : HabitRow → HabitRow) : Bool × DB :=
  if (db.habits.find? (fun h => h.id == hid)).isSome then
    (true, { db with habits := db.habits.map (fun h => if h.id == hid then upd h else h) })
  else (false, db)

/-- Embedding of `DatabaseController.update_data('task', id, cols)`. -/
def update_data_task (db : DB) (tid : Nat) (upd : TaskRow → TaskRow) : Bool × DB :=
  if (db.tasks.find? (fun t => t.id == tid)).isSome then
    (true, { db with tasks := db.tasks.map (fun t => if t.id == tid then upd t else t) })
  else (false, db)

/-- Embedding of `DatabaseController.delete_data('habit', id)`: delete the
habit's tasks first, then the habit row itself. -/
def delete_data_habit (db : DB) (hid : Nat) : Bool × DB :=
  (true,
    { db with
        tasks := db.tasks.filter (fun t => !(t.habit_id == hid)),
        habits := db.habits.filter (fun h => !(h.id == hid)) })

/-! ## Validation (src/utils/validators.py) -/

/-- Python's whitespace test used by `str.strip()` (the characters Python
considers whitespace in ASCII range). -/
def isSpaceChar (c : Char) : Bool :=
  c == ' ' || c == '\t' || c == '\n' || c == '\r' || c == '\x0b' || c == '\x0c'

/-- Model of Python `str.strip()`: drop leading and trailing whitespace. -/
def pyStrip (s : String) : String :=
  String.mk (((s.data.dropWhile isSpaceChar).reverse.dropWhile isSpaceChar).reverse)

/-- Embedding of `HabitValidator.validate_habit_data` for creation
(`updating_field = None`, so the start-not-in-the-past check is skipped).
String parsing of the two dates becomes the `ValidDate` predicate; the
Python falsy check on required fields becomes a non-emptiness (resp.
non-zero) check.  Dates are required fields, so `end` must be present at
creation time. -/
def validate_habit_data (d : HabitData) : Bool :=
  d.name ≠ "" && d.category ≠ "" && d.description ≠ "" &&
    d.importance ≠ "" && d.repeat_ ≠ "" && d.tasks_description ≠ "" &&
    1 ≤ d.tasks && d.tasks ≤ 10 &&
    ValidDate d.start && ValidDate d.stop &&
    dateLtb d.start d.stop &&
    (pyStrip d.name).length ≤ 50 && 1 ≤ (pyStrip d.name).length &&
    (pyStrip d.category).length ≤ 30 && 1 ≤ (pyStrip d.category).length &&
    (pyStrip d.description).length ≤ 200 && 1 ≤ (pyStrip d.description).length &&
    (pyStrip d.tasks_description).length ≤ 50 && 1 ≤ (pyStrip d.tasks_description).length &&
    (d.importance == "Paused" || d.importance == "Low" || d.importance == "High") &&
    (d.repeat_ == "Daily" || d.repeat_ == "Weekly")

/-- The validator writes the stripped string fields back into the data
dict (`data[field] = value` after `strip()`); the callers then use the
stripped values.  Modelled as an explicit normalization step. -/
def normalize_habit_data (d : HabitData) : HabitData :=
  { d with
      name := pyStrip d.name, category := pyStrip d.category,
      description := pyStrip d.description,
      tasks_description := pyStrip d.tasks_description }

/-- Embedding of `TaskValidator.validate_status`. -/
def validate_status (status : String) : Bool :=
  status == "pending" || status == "done" || status == "ignore"

/-! ## Habit mutation (src/controllers/habit.py, src/models/habit.py) -/

/-- Embedding of `HabitController.increment_streak`: read the habit's
current streak and write back streak + 1.  No other column is touched. -/
def ctrl_increment_streak (db : DB) (hid : Nat) : Bool × DB :=
  match findHabit db hid with
  | none => (false, db)
  | some h => update_data_habit db hid (fun r => { r with streak := h.streak + 1 })

/-- Embedding of `HabitController.increment_reset_counter`. -/
def ctrl_increment_reset_counter (db : DB) (hid : Nat) : Bool × DB :=
  match findHabit db hid with
  | none => (false, db)
  | some h =>
    update_data_habit db hid (fun r => { r with streak_reset_count := h.streak_reset_count + 1 })

/-- Embedding of `HabitController.reset_streak`: set streak to 0, then, on
success, bump the reset counter; the result of the first update is
returned. -/
def ctrl_reset_streak (db : DB) (hid : Nat) : Bool × DB :=
  let r := update_data_habit db hid (fun h => { h with streak := 0 })
  if r.1 then (r.1, (ctrl_increment_reset_counter r.2 hid).2) else r

/-- Embedding of `HabitController.pause_habit`: one update setting streak
to 0 and importance to Paused, then, on success, bump the reset counter. -/
def ctrl_pause_habit (db : DB) (hid : Nat) : Bool × DB :=
  let r := update_data_habit db hid (fun h => { h with streak := 0, importance := "Paused" })
  if r.1 then (r.1, (ctrl_increment_reset_counter r.2 hid).2) else r

/-- The user-updatable habit fields (`HabitController.get_valid_fields`),
each carrying its new value. -/
inductive UpdateField where
  | category (v : String)
  | description (v : String)
  | start (v : Date)
  | stop (v : Date)
  | importance (v : String)
  | repeat_ (v : String)
deriving DecidableEq, Repr

/-- The single-column assignment performed by
`update_data('habit', id, update_data)` for each user field. -/
def applyUpdateField (f : UpdateField) (h : HabitRow) : HabitRow :=
  match f with
  | .category v => { h with category := v }
  | .description v => { h with description := v }
  | .start v => { h with start := v }
  | .stop v => { h with stop := some v }
  | .importance v => { h with importance := v }
  | .repeat_ v => { h with repeat_ := v }

/-- Embedding of the field-update path `HabitController.update_habit`
restricted to streak state: validation of the merged record never touches
the streak columns, so it is abstracted to an arbitrary boolean `valid`
(when it is false the update is rejected unchanged).  Setting importance
to Paused is special-cased to `pause_habit`, exactly as in the source. -/
def ctrl_update_habit (db : DB) (hid : Nat) (f : UpdateField) (valid : Bool) : Bool × DB :=
  match findHabit db hid with
  | none => (false, db)
  | some _ =>
    if valid then
      match f with
      | .importance v =>
        if v = "Paused" then ctrl_pause_habit db hid
        else update_data_habit db hid (applyUpdateField f)
      | _ => update_data_habit db hid (applyUpdateField f)
    else (false, db)

/-- Embedding of the model-level `Habit.increment_streak` followed by
`Habit.update_longest_streak`, as observed on the habit's stored row:
streak becomes streak + 1, and when the new streak exceeds the stored
longest streak, longest_streak is raised to the new streak. -/
def habit_increment_streak (h : HabitRow) : HabitRow :=
  let h1 := { h with streak := h.streak + 1 }
  if h1.longest_streak < h1.streak then { h1 with longest_streak := h1.streak } else h1

/-- Embedding of the model-level `Habit.reset_streak` as observed on the
stored row: streak 0, reset counter + 1. -/
def habit_reset_streak (h : HabitRow) : HabitRow :=
  { h with streak := 0, streak_reset_count := h.streak_reset_count + 1 }

/-! ## Habit creation (src/controllers/habit.py) -/

/-- The loop body of `HabitController._create_habit_tasks`: insert one task
per number in `nums`, collecting the ids of the successful inserts and
silently skipping failed ones (there is no abort and no per-task
rollback). -/
def create_habit_tasks_go (hid : Nat) (desc : String) (due : Date) :
    List Nat → DB → List Nat × DB
  | [], db => ([], db)
  | num :: rest, db =>
    let r := create_data_task db
      { habit_id := hid, task_number := num, task_description := desc,
        due_date := due, status := "pending" }
    let rec_ := create_habit_tasks_go hid desc due rest r.2
    (if 0 ≤ r.1 then r.1.toNat :: rec_.1 else rec_.1, rec_.2)

/-- Embedding of `HabitController._create_habit_tasks`: create tasks
numbered 1..tasks, all due on the start date; report failure only when
no task at all was created (`if not task_ids`). -/
def create_habit_tasks (db : DB) (hid : Nat) (d : HabitData) : Bool × DB :=
  let r := create_habit_tasks_go hid d.tasks_description d.start
    (List.range' 1 d.tasks) db
  (!r.1.isEmpty, r.2)

/-- Embedding of `HabitController.create_habit`: validate (the validator
strips the string fields in place), insert the habit row, create the
initial task series, and on a reported series failure delete the habit
(which cascades to its tasks).  Returns the new habit id on success. -/
def create_habit (db : DB) (d0 : HabitData) : Option Nat × DB :=
  if validate_habit_data d0 then
    let d := normalize_habit_data d0
    let r := create_data_habit db d
    if r.1 < 0 then (none, r.2)
    else
      let hid := r.1.toNat
      let s := create_habit_tasks r.2 hid d
      if s.1 then (some hid, s.2)
      else (none, (delete_data_habit s.2 hid).2)
  else (none, db)

/-! ## Task series engine (src/models/task.py, src/controllers/task.py) -/

/-- Embedding of `Task._is_past_end_date`: false when the habit has no end
date, otherwise a strict greater-than comparison of calendar dates. -/
def is_past_end_date (next_due : Date) (stop : Option Date) : Bool :=
  match stop with
  | none => false
  | some e => dateLtb e next_due

/-- The loop of `Task._create_task_series`: insert tasks numbered 1..N with
the habit's current description template, aborting the remaining batch on
the first failed insert (`if not task.save(): return False`). -/
def create_task_series_go (hid : Nat) (desc : String) (due : Date) :
    List Nat → DB → Bool × DB
  | [], db => (true, db)
  | num :: rest, db =>
    let r := create_data_task db
      { habit_id := hid, task_number := num, task_description := desc,
        due_date := due, status := "pending" }
    if r.1 < 0 then (false, r.2)
    else create_task_series_go hid desc due rest r.2

/-- Embedding of `Task._create_task_series` (count and description template
are taken from the habit row as it currently stands). -/
def create_task_series (db : DB) (hid : Nat) (next_due : Date) (h : HabitRow) : Bool × DB :=
  create_task_series_go hid h.tasks_description next_due (List.range' 1 h.tasks) db

/-- Embedding of `Task.create_next_series`: look up the habit, compute the
next due date from the recurrence, stop silently when it is past the end
date, otherwise create the next series. -/
def create_next_series (db : DB) (hid : Nat) (due : Date) : Bool × DB :=
  match findHabit db hid with
  | none => (false, db)
  | some h =>
    match get_next_date due h.repeat_ with
    | none => (false, db)
    | some next_due =>
      if is_past_end_date next_due h.stop then (false, db)
      else create_task_series db hid next_due h

/-- Embedding of `Task.get_tasks_for_habit` /
`TaskController.get_tasks_for_habit`: the series rows for one
(habit id, due date) key. -/
def get_tasks_for_habit (db : DB) (hid : Nat) (due : Date) : List TaskRow :=
  tasksFor db hid due

/-- Embedding of `TaskController.check_task_completion_status`:
(all done, all done-or-ignored). -/
def check_task_completion_status (tasks : List TaskRow) : Bool × Bool :=
  (tasks.all (fun t => t.status == "done"),
    tasks.all (fun t => t.status == "done" || t.status == "ignore"))

/-- Embedding of `TaskController._validate_status`: the statuses accepted
by the task-update entry point. -/
def ctrl_validate_status (status : String) : Bool :=
  status == "done" || status == "ignore" || status == "pause habit"

/-- Embedding of `TaskController.update_task_status`: validate the target
status, check the task exists, then write the status column. -/
def update_task_status (db : DB) (tid : Nat) (new_status : String) : Bool × DB :=
  if ctrl_validate_status new_status then
    match findTask db tid with
    | none => (false, db)
    | some _ => update_data_task db tid (fun t => { t with status := new_status })
  else (false, db)

/-- The loop of `TaskController._create_task_set`: insert `numTasks` tasks
at the next due date; a failed insert clears the success flag but the
loop continues. -/
def create_task_set_go (hid : Nat) (desc : String) (due : Date) :
    List Nat → DB → Bool × DB
  | [], db => (true, db)
  | num :: rest, db =>
    let r := create_data_task db
      { habit_id := hid, task_number := num, task_description := desc,
        due_date := due, status := "pending" }
    let rec_ := create_task_set_go hid desc due rest r.2
    (if r.1 < 0 then false else rec_.1, rec_.2)

/-- Embedding of `TaskController.create_next_tasks`: look up the habit,
compute the next due date (inclusive end-date boundary, same strict
comparison), then create `tasks.length` new pending tasks. -/
def create_next_tasks (db : DB) (hid : Nat) (due : Date) (tasks : List TaskRow) : Bool × DB :=
  match findHabit db hid with
  | none => (false, db)
  | some h =>
    match h.stop with
    | none => (false, db)
    | some stop =>
      let next_due := calculate_next_due_date h.repeat_ due
      if dateLtb stop next_due then (false, db)
      else create_task_set_go hid h.tasks_description next_due
        (List.range' 1 tasks.length) db

/-! ## Rollover orchestration (src/task_overview.py)

`TaskOverview` delegates single-record operations through
`ui_db_handler.UserInputHandler`, whose module is not part of the source
tree; its operations (`update_task_status`, `increment_streak`,
`get_tasks_for_habit`, `check_task_completion_status`,
`create_next_tasks`) are embedded as the same-named operations of
`TaskController` and `HabitController`.  The row-number indirection of
the UI (`task_id_map`) is resolved away: the batch is given directly as
the list of task ids.  The Python `set` of due dates per habit is kept
in first-insertion order; the properties proved about this pipeline are
insensitive to that order. -/

/-- Add (habit id, due date) to the per-habit due-date collection. -/
def tbh_add (tbh : List (Nat × List Date)) (hid : Nat) (due : Date) :
    List (Nat × List Date) :=
  if tbh.any (fun p => p.1 == hid) then
    tbh.map (fun p =>
      if p.1 == hid then (p.1, if p.2.contains due then p.2 else p.2 ++ [due]) else p)
  else tbh ++ [(hid, [due])]

/-- Result of the update loop in `TaskOverview.process_task_updates`. -/
structure UpdRes where
  updated : List Nat
  failed : List Nat
  tbh : List (Nat × List Date)
  db : DB

/-- The per-task loop of `TaskOverview.process_task_updates`: update each
task's status; on success record its (habit id, due date) key and the
row in `updated`, otherwise record it in `failed`. -/
def process_updates_go (status : String) :
    List Nat → List (Nat × List Date) → DB → UpdRes
  | [], tbh, db => ⟨[], [], tbh, db⟩
  | tid :: rest, tbh, db =>
    let r := update_task_status db tid status
    if r.1 then
      let tbh1 :=
        match findTask r.2 tid with
        | some t => tbh_add tbh t.habit_id t.due_date
        | none => tbh
      let k := process_updates_go status rest tbh1 r.2
      ⟨tid :: k.updated, k.failed, k.tbh, k.db⟩
    else
      let k := process_updates_go status rest tbh r.2
      ⟨k.updated, tid :: k.failed, k.tbh, k.db⟩

/-- The per-habit due-date loop of `TaskOverview._handle_streak_updates`:
on the first due date whose series (read from the snapshot taken before
the loop) is entirely done, increment the habit's streak and stop
(`break`). -/
def streak_update_dues (snapshot : List TaskRow) (hid : Nat) :
    List Date → DB → DB
  | [], db => db
  | due :: rest, db =>
    if (snapshot.filter (fun t => t.habit_id == hid && t.due_date == due)).all
        (fun t => t.status == "done") then
      (ctrl_increment_streak db hid).2
    else streak_update_dues snapshot hid rest db

/-- Embedding of `TaskOverview._handle_streak_updates`: the task table is
read once up front and used as the snapshot for every series check. -/
def handle_streak_updates (db : DB) (tbh : List (Nat × List Date)) : DB :=
  (tbh.foldl (fun acc p => streak_update_dues db.tasks p.1 p.2 acc) db)

/-- The per-habit due-date loop of `TaskOverview._create_next_tasks`
(no break; each series is re-read from the current store). -/
def create_next_tasks_dues (hid : Nat) : List Date → DB → DB
  | [], db => db
  | due :: rest, db =>
    let habit_tasks := get_tasks_for_habit db hid due
    let db1 :=
      if habit_tasks.isEmpty then db
      else
        let c := check_task_completion_status habit_tasks
        if c.2 then (create_next_tasks db hid due habit_tasks).2 else db
    create_next_tasks_dues hid rest db1

/-- Embedding of `TaskOverview._create_next_tasks`. -/
def overview_create_next_tasks (db : DB) (tbh : List (Nat × List Date)) : DB :=
  tbh.foldl (fun acc p => create_next_tasks_dues p.1 p.2 acc) db

/-- Embedding of `TaskOverview.process_task_updates`: update the batch,
then — only when the batch status is `done` — run the streak update pass,
and finally the next-series pass.  No path of this pipeline ever calls
`reset_streak`. -/
def process_task_updates (db : DB) (taskIds : List Nat) (status : String) :
    (List Nat × List Nat) × DB :=
  let k := process_updates_go status taskIds [] db
  let db1 := if status == "done" then handle_streak_updates k.db k.tbh else k.db
  let db2 := overview_create_next_tasks db1 k.tbh
  ((k.updated, k.failed), db2)

/-! ## Analytics (src/models/analytics.py, src/controllers/analytics.py) -/

/-- The grouping key of `Analytics._group_tasks_by_period`: for Weekly the
Monday of the due date's week (`date - timedelta(days=date.weekday())`),
otherwise the due date itself. -/
def period_key (rep : String) (due : Date) : Date :=
  if rep = "Weekly" then subDays (dateWeekday due) due else due

/-- One step of the grouping dict build (Python dicts preserve insertion
order). -/
def group_insert (gs : List (Date × List TaskRow)) (k : Date) (t : TaskRow) :
    List (Date × List TaskRow) :=
  if gs.any (fun p => p.1 == k) then
    gs.map (fun p => if p.1 == k then (p.1, p.2 ++ [t]) else p)
  else gs ++ [(k, [t])]

/-- Embedding of `Analytics._group_tasks_by_period`. -/
def group_tasks_by_period (tasks : List TaskRow) (rep : String) :
    List (Date × List TaskRow) :=
  tasks.foldl (fun gs t => group_insert gs (period_key rep t.due_date) t) []

/-- Result of the success-rate calculation: `"N/A"` or a whole-number
percentage. -/
inductive RateResult where
  | na
  | pct (p : ℤ)
deriving DecidableEq, Repr

/-- Rounding used by Python's string formatting `"(:.0f)"` on the rate:
round to the nearest integer, ties to the even integer.  Python computes
the rate in binary floating point; it is modelled here by the exact
rational value. -/
def pyRound (q : ℚ) : ℤ :=
  if q - ⌊q⌋ < 1/2 then ⌊q⌋
  else if (1 : ℚ)/2 < q - ⌊q⌋ then ⌊q⌋ + 1
  else if ⌊q⌋ % 2 = 0 then ⌊q⌋ else ⌊q⌋ + 1

/-- Embedding of `Analytics.calculate_success_rate`: fetch the habit's
tasks, group them into periods by the habit's recurrence, count the
periods in which every task is done, and return the clamped, rounded
percentage — `"N/A"` when there are no periods, and no result at all
(`None` falls out of the Python function) when the habit does not
exist. -/
def calculate_success_rate (db : DB) (hid : Nat) : Option RateResult :=
  let tasks := db.tasks.filter (fun t => t.habit_id == hid)
  match findHabit db hid with
  | none => none
  | some h =>
    let grouped := group_tasks_by_period tasks h.repeat_
    let successful :=
      (grouped.filter (fun g => g.2.all (fun t => t.status == "done"))).length
    let total := grouped.length
    if total = 0 then some .na
    else
      let rate : ℚ := (successful : ℚ) / (total : ℚ) * 100
      some (.pct (pyRound (max 0 (min 100 rate))))

/-- One row of `Analytics.get_analytics_data`'s output dicts. -/
structure AnalyticsRow where
  name : String
  category : String
  description : String
  repeat_ : String
  days_passed : Nat
  success_rate : String
  current_streak : Nat
  longest_streak : Nat
  reset_count : Nat
  importance : String
deriving DecidableEq, Repr

/-- Model of `str(item.get(key, ''))` on an analytics dict: the stored
value as a string, or the empty string for a key the dict does not
have. -/
def analytics_get (r : AnalyticsRow) (key : String) : String :=
  if key = "name" then r.name
  else if key = "category" then r.category
  else if key = "description" then r.description
  else if key = "repeat" then r.repeat_
  else if key = "days_passed" then toString r.days_passed
  else if key = "success_rate" then r.success_rate
  else if key = "current_streak" then toString r.current_streak
  else if key = "longest_streak" then toString r.longest_streak
  else if key = "reset_count" then toString r.reset_count
  else if key = "importance" then r.importance
  else ""

/-- Model of Python `str.lower()` on the character list of a string. -/
def pyLower (s : String) : List Char := s.data.map Char.toLower

/-- Model of the Python substring test `needle in haystack`: the needle
occurs contiguously in the haystack. -/
def pyInStr (needle haystack : String) : Bool :=
  decide (List.IsInfix (pyLower needle) (pyLower haystack))

/-- Embedding of `Analytics.filter_analytics_data`: keep the rows whose
value under the filter key contains the filter value,
case-insensitively; a key the dicts do not have reads as the empty
string. -/
def filter_analytics_data (data : List AnalyticsRow) (filter_by value : String) :
    List AnalyticsRow :=
  data.filter (fun item => pyInStr value (analytics_get item filter_by))

/-- The habit-tuple field selected by `AnalyticsController.filter_habits`
for each known filter key; the key `status` maps to tuple index 7, the
importance column. -/
def habit_field_str (h : HabitRow) (key : String) : String :=
  if key = "name" then h.name
  else if key = "category" then h.category
  else if key = "description" then h.description
  else if key = "repeat" then h.repeat_
  else h.importance

/-- Embedding of `AnalyticsController.filter_habits`: an unknown filter
key returns the input unchanged; a known key filters by case-insensitive
substring match. -/
def filter_habits (habits : List HabitRow) (filter_by value : String) : List HabitRow :=
  if filter_by = "name" ∨ filter_by = "category" ∨ filter_by = "description" ∨
      filter_by = "repeat" ∨ filter_by = "status" then
    habits.filter (fun h => pyInStr value (habit_field_str h filter_by))
  else habits

/-! ## Concrete fixtures used by counterexamples and witnesses -/

/-- A habit row fixture: a daily habit with two tasks per series. -/
def hrow1 : HabitRow :=
  { id := 1, name := "Run", category := "Sport", description := "Morning run",
    start := ⟨2024, 1, 1⟩, stop := some ⟨2024, 12, 31⟩, importance := "High",
    repeat_ := "Daily", tasks := 2, tasks_description := "Lace up",
    streak := 2, streak_reset_count := 0, longest_streak := 0 }

/-! ## C6: recurrence-date advancement -/

/-- C6 counterexample.  The claim says every recurrence value other than
Daily or Weekly makes the function fail rather than return a date; the
cited `TaskController.calculate_next_due_date` instead falls through and
returns the input date unchanged for such values (here `Monthly`), while
the cited `get_next_date` does fail. -/
theorem c6_counterexample :
    calculate_next_due_date "Monthly" ⟨2024, 1, 15⟩ = (⟨2024, 1, 15⟩ : Date) ∧
    get_next_date ⟨2024, 1, 15⟩ "Monthly" = none := by
  exact ⟨rfl, rfl⟩

/-- C6 (amended): for every valid calendar date, `get_next_date` advances
Daily by exactly one day and Weekly by exactly seven days in absolute
day count (hence correctly across month and year boundaries, witnessed
by the ordinal arithmetic), and fails (returns nothing) for any other
recurrence value; `TaskController.calculate_next_due_date` computes the
same advances but returns the input date unchanged, instead of failing,
for any other recurrence value. -/
theorem c6_next_due_date (d : Date) (hd : ValidDate d) (r : String) :
    get_next_date d "Daily" = some (addDays 1 d) ∧
    get_next_date d "Weekly" = some (addDays 7 d) ∧
    toOrdinal (addDays 1 d) = toOrdinal d + 1 ∧ ValidDate (addDays 1 d) ∧
    toOrdinal (addDays 7 d) = toOrdinal d + 7 ∧ ValidDate (addDays 7 d) ∧
    calculate_next_due_date "Daily" d = addDays 1 d ∧
    calculate_next_due_date "Weekly" d = addDays 7 d ∧
    (r ≠ "Daily" → r ≠ "Weekly" →
      get_next_date d r = none ∧ calculate_next_due_date r d = d) := by
  obtain ⟨h1, h2⟩ := toOrdinal_addDays 1 d hd
  obtain ⟨h7, h8⟩ := toOrdinal_addDays 7 d hd
  have e1 : get_next_date d "Daily" = some (addDays 1 d) := by
    unfold get_next_date
    rw [if_pos rfl]
  have e2 : get_next_date d "Weekly" = some (addDays 7 d) := by
    unfold get_next_date
    rw [if_neg (by decide : ¬("Weekly" = "Daily")), if_pos rfl]
  have e3 : calculate_next_due_date "Daily" d = addDays 1 d := by
    unfold calculate_next_due_date
    rw [if_pos rfl]
  have e4 : calculate_next_due_date "Weekly" d = addDays 7 d := by
    unfold calculate_next_due_date
    rw [if_neg (by decide : ¬("Weekly" = "Daily")), if_pos rfl]
  refine ⟨e1, e2, h1, h2, h7, h8, e3, e4, ?_⟩
  intro hr1 hr2
  constructor
  · unfold get_next_date
    rw [if_neg hr1, if_neg hr2]
  · unfold calculate_next_due_date
    rw [if_neg hr1, if_neg hr2]

/-- C6 witness: the theorem applied on 2024-02-28 (a leap year) and on the
recurrence value `Monthly`, together with concrete boundary
evaluations. -/
theorem c6_next_due_date_witness :
    get_next_date ⟨2024, 2, 28⟩ "Daily" = some ⟨2024, 2, 29⟩ ∧
    get_next_date ⟨2023, 2, 28⟩ "Daily" = some ⟨2023, 3, 1⟩ ∧
    get_next_date ⟨2023, 12, 31⟩ "Daily" = some ⟨2024, 1, 1⟩ ∧
    get_next_date ⟨2024, 2, 26⟩ "Weekly" = some ⟨2024, 3, 4⟩ ∧
    get_next_date ⟨2024, 1, 15⟩ "Monthly" = none ∧
    calculate_next_due_date "Monthly" ⟨2024, 1, 15⟩ = (⟨2024, 1, 15⟩ : Date) := by
  have h := c6_next_due_date ⟨2024, 1, 15⟩ (by decide) "Monthly"
  have h9 := h.2.2.2.2.2.2.2.2 (by decide) (by decide)
  exact ⟨by decide, by decide, by decide, by decide, h9.1, h9.2⟩

/-! ## C7: task-resolution status validation -/

/-- A pending task fixture and its one-task store. -/
def trow1 : TaskRow :=
  { id := 1, habit_id := 1, task_number := 1, task_description := "Lace up",
    due_date := ⟨2024, 1, 1⟩, status := "pending" }

/-- Store holding only the pending task `trow1`. -/
def dbC7 : DB := { habits := [], tasks := [trow1], nextHabitId := 1, nextTaskId := 2 }

/-- C7 counterexample.  The claim says task resolution succeeds only for
the target statuses done and ignore; but `TaskController.update_task_status`
also accepts the pseudo-status `pause habit` and writes it into the
task's status column. -/
theorem c7_counterexample :
    (update_task_status dbC7 1 "pause habit").1 = true ∧
    ((update_task_status dbC7 1 "pause habit").2.tasks.map TaskRow.status) =
      ["pause habit"] := by
  exact ⟨by decide, by decide⟩

/-- C7 (amended): the controller accepts exactly the target statuses done,
ignore and `pause habit`; any other target is rejected with the store
unchanged; acceptance additionally requires the task to exist; on
success exactly the addressed task's status cell is overwritten.  The
cited `TaskValidator.validate_status` accepts pending, done and ignore. -/
theorem c7_update_task_status (db : DB) (tid : Nat) (s : String) :
    ((update_task_status db tid s).1 = true ↔
      ((s = "done" ∨ s = "ignore" ∨ s = "pause habit") ∧ (findTask db tid).isSome)) ∧
    ((update_task_status db tid s).1 = false → (update_task_status db tid s).2 = db) ∧
    ((update_task_status db tid s).1 = true →
      (update_task_status db tid s).2.tasks =
        db.tasks.map (fun t => if t.id = tid then { t with status := s } else t) ∧
      (update_task_status db tid s).2.habits = db.habits) ∧
    (validate_status s = true ↔ (s = "pending" ∨ s = "done" ∨ s = "ignore")) := by
  have hv : ctrl_validate_status s = true ↔
      (s = "done" ∨ s = "ignore" ∨ s = "pause habit") := by
    unfold ctrl_validate_status
    simp [Bool.or_eq_true, beq_iff_eq, or_assoc]
  have hv2 : validate_status s = true ↔ (s = "pending" ∨ s = "done" ∨ s = "ignore") := by
    unfold validate_status
    simp [Bool.or_eq_true, beq_iff_eq, or_assoc]
  unfold update_task_status
  by_cases hc : ctrl_validate_status s = true
  · rw [if_pos hc]
    cases hf : findTask db tid with
    | none =>
      refine ⟨?_, fun _ => rfl, ?_, hv2⟩
      · simp [hf, hv.mp hc]
      · intro h
        simp at h
    | some t =>
      have hsome : (db.tasks.find? (fun t => t.id == tid)).isSome := by
        unfold findTask at hf
        rw [hf]
        rfl
      unfold update_data_task
      rw [if_pos hsome]
      refine ⟨?_, ?_, ?_, hv2⟩
      · simp [hf, hv.mp hc]
      · intro h
        simp at h
      · intro _
        constructor
        · simp only []
          congr 1
          funext t'
          by_cases he : t'.id = tid
          · rw [if_pos he, if_pos (by simp [he])]
          · rw [if_neg he, if_neg (by simp [he])]
        · rfl
  · rw [if_neg hc]
    refine ⟨?_, fun _ => rfl, ?_, hv2⟩
    · constructor
      · intro h
        simp at h
      · rintro ⟨hs, -⟩
        exact absurd (hv.mpr hs) hc
    · intro h
      simp at h

/-- C7 witness: the amended theorem applied on the concrete store:
resolving to done succeeds, resolving to the unknown status `paused`
is rejected and leaves the store unchanged. -/
theorem c7_update_task_status_witness :
    (update_task_status dbC7 1 "done").1 = true ∧
    update_task_status dbC7 1 "paused" = (false, dbC7) := by
  have h1 := c7_update_task_status dbC7 1 "done"
  have h2 := c7_update_task_status dbC7 1 "paused"
  refine ⟨h1.1.mpr ⟨Or.inl rfl, by decide⟩, ?_⟩
  have hf : (update_task_status dbC7 1 "paused").1 = false := by decide
  have hdb := h2.2.1 hf
  calc update_task_status dbC7 1 "paused"
      = ((update_task_status dbC7 1 "paused").1, (update_task_status dbC7 1 "paused").2) := rfl
    _ = (false, dbC7) := by rw [hf, hdb]

/-! ## C9: analytics filtering -/

/-- An analytics-row fixture. -/
def arow1 : AnalyticsRow :=
  { name := "Run", category := "Sport", description := "Morning run",
    repeat_ := "Daily", days_passed := 5, success_rate := "50%",
    current_streak := 1, longest_streak := 2, reset_count := 0,
    importance := "High" }

theorem pyLower_eq_nil_iff (s : String) : pyLower s = [] ↔ s = "" := by
  unfold pyLower
  rw [List.map_eq_nil_iff]
  constructor
  · intro h
    cases s with
    | mk data =>
      simp only at h
      subst h
      rfl
  · intro h
    subst h
    rfl

/-- C9 counterexample.  The claim says an unmatched filter field name makes
the filter the identity; `Analytics.filter_analytics_data` instead reads
an unknown key as the empty string, so with a nonempty filter value it
returns the empty list, not the input list. -/
theorem c9_counterexample :
    filter_analytics_data [arow1] "bogus" "a" = [] ∧
    [arow1] ≠ ([] : List AnalyticsRow) := by
  exact ⟨by decide, by decide⟩

/-- C9 (amended): both filters are total functions performing a
case-insensitive substring match on known fields; for a field name that
matches no known field, `AnalyticsController.filter_habits` returns the
input unchanged, but `Analytics.filter_analytics_data` reads the missing
key as the empty string and therefore returns the input unchanged only
for the empty filter value and the empty list for any other value. -/
theorem c9_filter (habits : List HabitRow) (data : List AnalyticsRow) (fb v : String)
    (hfb : fb ≠ "name" ∧ fb ≠ "category" ∧ fb ≠ "description" ∧ fb ≠ "repeat" ∧
      fb ≠ "status" ∧ fb ≠ "days_passed" ∧ fb ≠ "success_rate" ∧
      fb ≠ "current_streak" ∧ fb ≠ "longest_streak" ∧ fb ≠ "reset_count" ∧
      fb ≠ "importance") :
    filter_habits habits fb v = habits ∧
    (v = "" → filter_analytics_data data fb v = data) ∧
    (v ≠ "" → filter_analytics_data data fb v = []) ∧
    (∀ r, r ∈ filter_analytics_data data "name" v ↔ r ∈ data ∧ pyInStr v r.name = true) := by
  obtain ⟨h1, h2, h3, h4, h5, h6, h7, h8, h9, h10, h11⟩ := hfb
  have hget : ∀ r : AnalyticsRow, analytics_get r fb = "" := by
    intro r
    unfold analytics_get
    rw [if_neg h1, if_neg h2, if_neg h3, if_neg h4, if_neg h6, if_neg h7, if_neg h8,
      if_neg h9, if_neg h10, if_neg h11]
  refine ⟨?_, ?_, ?_, ?_⟩
  · unfold filter_habits
    rw [if_neg (by simp [h1, h2, h3, h4, h5])]
  · intro hv
    subst hv
    unfold filter_analytics_data
    apply List.filter_eq_self.mpr
    intro a _
    rw [hget a]
    decide
  · intro hv
    unfold filter_analytics_data
    apply List.filter_eq_nil_iff.mpr
    intro a _
    rw [hget a]
    intro hcon
    have h' := of_decide_eq_true hcon
    have hn : pyLower "" = [] := rfl
    rw [hn] at h'
    exact hv ((pyLower_eq_nil_iff v).mp (List.eq_nil_of_infix_nil h'))
  · intro r
    have hname : ∀ r' : AnalyticsRow, analytics_get r' "name" = r'.name := fun _ => rfl
    unfold filter_analytics_data
    simp only [List.mem_filter, hname]

/-- C9 witness: the amended theorem applied on concrete one-row lists and
the unknown field name `bogus`. -/
theorem c9_filter_witness :
    filter_habits [hrow1] "bogus" "a" = [hrow1] ∧
    filter_analytics_data [arow1] "bogus" "" = [arow1] ∧
    filter_analytics_data [arow1] "bogus" "a" = [] := by
  have h := c9_filter [hrow1] [arow1] "bogus" "a" (by decide)
  have h0 := c9_filter [hrow1] [arow1] "bogus" "" (by decide)
  exact ⟨h.1, h0.2.1 rfl, h.2.2.1 (by decide)⟩

/-! ## C10: duplicate rejection on insert -/

/-- Two habit rows differ on the duplicate key of the habit table. -/
def habitKeyDistinct (a b : HabitRow) : Prop :=
  ¬(a.name = b.name ∧ a.description = b.description)

/-- Two task rows differ on the duplicate key of the task table. -/
def taskKeyDistinct (a b : TaskRow) : Prop :=
  ¬(a.task_description = b.task_description ∧ a.habit_id = b.habit_id ∧
    a.task_number = b.task_number ∧ a.due_date = b.due_date)

/-- A resolved task and its store, plus an insert that matches it on
habit id, task number and due date but not on description. -/
def trowA : TaskRow :=
  { id := 1, habit_id := 1, task_number := 1, task_description := "a",
    due_date := ⟨2024, 1, 1⟩, status := "done" }

/-- Store holding only `trowA`. -/
def dbC10 : DB := { habits := [], tasks := [trowA], nextHabitId := 1, nextTaskId := 2 }

/-- Insert matching `trowA` on every key field except the description. -/
def tdB : TaskData :=
  { habit_id := 1, task_number := 1, task_description := "b",
    due_date := ⟨2024, 1, 1⟩, status := "pending" }

/-- A habit-creation input fixture (valid under the validator). -/
def hdata1 : HabitData :=
  { name := "Run", category := "Sport", description := "Morning run",
    start := ⟨2024, 1, 1⟩, stop := ⟨2024, 2, 1⟩, importance := "High",
    repeat_ := "Daily", tasks := 3, tasks_description := "Lace up" }

/-- C10 counterexample.  The duplicate check compares the task description
as well, so a second task that matches an existing one on habit id, task
number and due date but differs in description is accepted — after the
insert the series (habit 1, 2024-01-01) holds two tasks with task
number 1, refuting the claimed consequence that no stored series can
ever contain two tasks with the same task number. -/
theorem c10_counterexample :
    0 ≤ (create_data_task dbC10 tdB).1 ∧
    ((tasksFor (create_data_task dbC10 tdB).2 1 ⟨2024, 1, 1⟩).map TaskRow.task_number) =
      [1, 1] := by
  exact ⟨by decide, by decide⟩

/-- C10 (amended): an insert is rejected (returning -1 and leaving the
store unchanged) exactly when an existing record matches on all of the
key fields — name and description for a habit; habit id, task number,
due date and task description for a task.  Consequently no two stored
habits share both name and description, and no two stored tasks agree on
that full task key; but a series can still contain two tasks with the
same task number when their descriptions differ. -/
theorem c10_create_data (db : DB) (td : TaskData) (hd : HabitData)
    (hhu : db.habits.Pairwise habitKeyDistinct)
    (htu : db.tasks.Pairwise taskKeyDistinct) :
    (taskDup db td = true ↔ ∃ t ∈ db.tasks, t.task_description = td.task_description ∧
      t.habit_id = td.habit_id ∧ t.task_number = td.task_number ∧
      t.due_date = td.due_date) ∧
    (taskDup db td = true → create_data_task db td = (-1, db)) ∧
    (taskDup db td = false → (create_data_task db td).1 = Int.ofNat db.nextTaskId) ∧
    (habitDup db hd.name hd.description = true ↔ ∃ h ∈ db.habits,
      h.name = hd.name ∧ h.description = hd.description) ∧
    (habitDup db hd.name hd.description = true → create_data_habit db hd = (-1, db)) ∧
    ((create_data_task db td).2.tasks.Pairwise taskKeyDistinct) ∧
    ((create_data_habit db hd).2.habits.Pairwise habitKeyDistinct) := by
  have hti : taskDup db td = true ↔ ∃ t ∈ db.tasks,
      t.task_description = td.task_description ∧ t.habit_id = td.habit_id ∧
      t.task_number = td.task_number ∧ t.due_date = td.due_date := by
    unfold taskDup
    simp [List.any_eq_true, Bool.and_eq_true, beq_iff_eq, and_assoc]
  have hhi : habitDup db hd.name hd.description = true ↔ ∃ h ∈ db.habits,
      h.name = hd.name ∧ h.description = hd.description := by
    unfold habitDup
    simp [List.any_eq_true, Bool.and_eq_true, beq_iff_eq]
  refine ⟨hti, ?_, ?_, hhi, ?_, ?_, ?_⟩
  · intro hdup
    unfold create_data_task
    rw [if_pos hdup]
  · intro hdup
    unfold create_data_task
    rw [if_neg (by rw [hdup]; exact Bool.false_ne_true)]
  · intro hdup
    unfold create_data_habit
    rw [if_pos hdup]
  · cases hdup : taskDup db td with
    | true =>
      unfold create_data_task
      rw [if_pos hdup]
      exact htu
    | false =>
      unfold create_data_task
      rw [if_neg (by rw [hdup]; exact Bool.false_ne_true)]
      simp only []
      rw [List.pairwise_append]
      refine ⟨htu, List.pairwise_singleton _ _, ?_⟩
      intro a ha b hb
      rw [List.mem_singleton] at hb
      subst hb
      unfold taskKeyDistinct
      rintro ⟨e1, e2, e3, e4⟩
      have hcon : taskDup db td = true := hti.mpr ⟨a, ha, e1, e2, e3, e4⟩
      rw [hdup] at hcon
      exact Bool.false_ne_true hcon
  · cases hdup : habitDup db hd.name hd.description with
    | true =>
      unfold create_data_habit
      rw [if_pos hdup]
      exact hhu
    | false =>
      unfold create_data_habit
      rw [if_neg (by rw [hdup]; exact Bool.false_ne_true)]
      simp only []
      rw [List.pairwise_append]
      refine ⟨hhu, List.pairwise_singleton _ _, ?_⟩
      intro a ha b hb
      rw [List.mem_singleton] at hb
      subst hb
      unfold habitKeyDistinct
      rintro ⟨e1, e2⟩
      have hcon : habitDup db hd.name hd.description = true := hhi.mpr ⟨a, ha, e1, e2⟩
      rw [hdup] at hcon
      exact Bool.false_ne_true hcon

/-- C10 witness: the amended theorem applied on the concrete store: the
differing-description insert is accepted with the next rowid, and the
full-key uniqueness invariant still holds afterwards. -/
theorem c10_create_data_witness :
    (create_data_task dbC10 tdB).1 = Int.ofNat 2 ∧
    (create_data_task dbC10 tdB).2.tasks.Pairwise taskKeyDistinct := by
  have h := c10_create_data dbC10 tdB hdata1 List.Pairwise.nil
    (List.pairwise_singleton _ _)
  exact ⟨h.2.2.1 (by decide), h.2.2.2.2.2.1⟩

/-! ## Helper lemmas about habit-table mutation -/

/-- How one streak-increment pass may change a habit row: identity and
bookkeeping fields are kept, the reset and longest-streak counters are
kept, and the streak never decreases. -/
def StreakMono (a b : HabitRow) : Prop :=
  b.id = a.id ∧ b.name = a.name ∧ b.streak_reset_count = a.streak_reset_count ∧
    b.longest_streak = a.longest_streak ∧ a.streak ≤ b.streak

theorem streakMono_refl (l : List HabitRow) : List.Forall₂ StreakMono l l :=
  List.forall₂_same.mpr (fun _ _ => ⟨rfl, rfl, rfl, rfl, le_refl _⟩)

theorem streakMono_trans {l1 l2 l3 : List HabitRow}
    (h12 : List.Forall₂ StreakMono l1 l2) (h23 : List.Forall₂ StreakMono l2 l3) :
    List.Forall₂ StreakMono l1 l3 := by
  induction h12 generalizing l3 with
  | nil =>
    cases h23
    exact List.Forall₂.nil
  | cons hab htl ih =>
    cases h23 with
    | cons hbc htl' =>
      refine List.Forall₂.cons ?_ (ih htl')
      obtain ⟨e1, e2, e3, e4, e5⟩ := hab
      obtain ⟨f1, f2, f3, f4, f5⟩ := hbc
      exact ⟨f1.trans e1, f2.trans e2, f3.trans e3, f4.trans e4, e5.trans f5⟩

theorem streakMono_map_id {l l' : List HabitRow}
    (h : List.Forall₂ StreakMono l l') : l'.map HabitRow.id = l.map HabitRow.id := by
  induction h with
  | nil => rfl
  | cons hab _ ih => simp [ih, hab.1]

theorem findHabit_isSome {db : DB} {hid : Nat} {h : HabitRow}
    (hf : findHabit db hid = some h) :
    (db.habits.find? (fun r => r.id == hid)).isSome = true := by
  unfold findHabit at hf
  rw [hf]
  rfl

theorem update_data_habit_pos (db : DB) (hid : Nat) (upd : HabitRow → HabitRow)
    (hs : (db.habits.find? (fun r => r.id == hid)).isSome = true) :
    update_data_habit db hid upd =
      (true,
        { db with habits := db.habits.map (fun r => if r.id == hid then upd r else r) }) := by
  unfold update_data_habit
  rw [if_pos hs]

theorem update_data_habit_tasks (db : DB) (hid : Nat) (upd : HabitRow → HabitRow) :
    ((update_data_habit db hid upd).2).tasks = db.tasks := by
  unfold update_data_habit
  split <;> rfl

theorem ctrl_increment_streak_none (db : DB) (hid : Nat)
    (hf : findHabit db hid = none) : ctrl_increment_streak db hid = (false, db) := by
  unfold ctrl_increment_streak
  rw [hf]

theorem ctrl_increment_streak_some (db : DB) (hid : Nat) (h : HabitRow)
    (hf : findHabit db hid = some h) :
    ctrl_increment_streak db hid =
      update_data_habit db hid (fun r => { r with streak := h.streak + 1 }) := by
  unfold ctrl_increment_streak
  rw [hf]

theorem ctrl_increment_reset_counter_none (db : DB) (hid : Nat)
    (hf : findHabit db hid = none) :
    ctrl_increment_reset_counter db hid = (false, db) := by
  unfold ctrl_increment_reset_counter
  rw [hf]

theorem ctrl_increment_reset_counter_some (db : DB) (hid : Nat) (h : HabitRow)
    (hf : findHabit db hid = some h) :
    ctrl_increment_reset_counter db hid =
      update_data_habit db hid
        (fun r => { r with streak_reset_count := h.streak_reset_count + 1 }) := by
  unfold ctrl_increment_reset_counter
  rw [hf]

theorem find_row_eq {db : DB} {hid : Nat} {h a : HabitRow}
    (hnd : (db.habits.map HabitRow.id).Nodup)
    (hf : findHabit db hid = some h) (ha : a ∈ db.habits) (hahid : a.id = hid) :
    a = h := by
  unfold findHabit at hf
  have hmem : h ∈ db.habits := List.mem_of_find?_eq_some hf
  have hhid := List.find?_some hf
  simp only [beq_iff_eq] at hhid
  exact List.inj_on_of_nodup_map hnd ha hmem (by rw [hahid, hhid])

theorem ctrl_increment_streak_forall2 (db : DB) (hid : Nat)
    (hnd : (db.habits.map HabitRow.id).Nodup) :
    List.Forall₂ StreakMono db.habits ((ctrl_increment_streak db hid).2).habits := by
  cases hf : findHabit db hid with
  | none =>
    rw [ctrl_increment_streak_none db hid hf]
    exact streakMono_refl _
  | some h =>
    rw [ctrl_increment_streak_some db hid h hf,
      update_data_habit_pos db hid _ (findHabit_isSome hf)]
    dsimp only
    rw [List.forall₂_map_right_iff]
    apply List.forall₂_same.mpr
    intro a ha
    by_cases he : (a.id == hid) = true
    · rw [if_pos he]
      rw [beq_iff_eq] at he
      have hae := find_row_eq hnd hf ha he
      subst hae
      exact ⟨rfl, rfl, rfl, rfl, Nat.le_succ _⟩
    · rw [if_neg he]
      exact ⟨rfl, rfl, rfl, rfl, le_refl _⟩

theorem ctrl_increment_streak_tasks (db : DB) (hid : Nat) :
    ((ctrl_increment_streak db hid).2).tasks = db.tasks := by
  cases hf : findHabit db hid with
  | none =>
    rw [ctrl_increment_streak_none db hid hf]
  | some h =>
    rw [ctrl_increment_streak_some db hid h hf]
    exact update_data_habit_tasks db hid _


/-- Generic invariant-preservation for a single-row habit update whose
column assignment preserves the invariant. -/
theorem update_data_habit_inv (db : DB) (hid : Nat) (upd : HabitRow → HabitRow)
    (P : HabitRow → Prop)
    (hupd : ∀ r, P r → P (upd r)) (hinv : ∀ a ∈ db.habits, P a) :
    ∀ a ∈ ((update_data_habit db hid upd).2).habits, P a := by
  unfold update_data_habit
  split
  · intro a ha
    simp only [List.mem_map] at ha
    obtain ⟨r, hr, rfl⟩ := ha
    by_cases he : r.id == hid
    · rw [if_pos he]
      exact hupd r (hinv r hr)
    · rw [if_neg he]
      exact hinv r hr
  · exact hinv

/-! ## C3: streak below longest streak -/

/-- A habit row with consistent streak state, and a store holding it. -/
def hrow2 : HabitRow :=
  { id := 1, name := "Read", category := "Mind", description := "Ten pages",
    start := ⟨2024, 1, 1⟩, stop := some ⟨2024, 12, 31⟩, importance := "Low",
    repeat_ := "Daily", tasks := 1, tasks_description := "Open book",
    streak := 0, streak_reset_count := 0, longest_streak := 0 }

/-- Store holding only `hrow2`. -/
def dbC3 : DB := { habits := [hrow2], tasks := [], nextHabitId := 2, nextTaskId := 1 }

/-- C3 counterexample.  The claim says streak ≤ longest streak immediately
after any mutation and that increment_streak raises the longest streak;
`HabitController.increment_streak` writes only the streak column, so on
a habit with streak 0 and longest streak 0 it produces streak 1 with
longest streak still 0, violating the invariant. -/
theorem c3_counterexample :
    (((ctrl_increment_streak dbC3 1).2).habits.map
        (fun a => (a.streak, a.longest_streak))) = [(1, 0)] ∧
    ¬((1 : Nat) ≤ 0) := by
  exact ⟨by decide, by decide⟩

/-- C3 (amended): the model-level `Habit.increment_streak` adds 1 to the
streak and raises the longest streak to match, re-establishing
streak ≤ longest streak; streak reset, pause and field updates preserve
the invariant; but the controller-level `HabitController.increment_streak`
adds 1 to the streak while leaving the longest-streak and reset columns
unchanged, so after it the streak may exceed the longest streak. -/
theorem c3_streak_invariant (h : HabitRow) (db : DB) (hid : Nat)
    (hids : (db.habits.map HabitRow.id).Nodup)
    (hinv : ∀ a ∈ db.habits, a.streak ≤ a.longest_streak) :
    (habit_increment_streak h).streak = h.streak + 1 ∧
    (habit_increment_streak h).longest_streak = max h.longest_streak (h.streak + 1) ∧
    (habit_increment_streak h).streak ≤ (habit_increment_streak h).longest_streak ∧
    (∀ a ∈ ((ctrl_reset_streak db hid).2).habits, a.streak ≤ a.longest_streak) ∧
    (∀ a ∈ ((ctrl_pause_habit db hid).2).habits, a.streak ≤ a.longest_streak) ∧
    (∀ f valid, ∀ a ∈ ((ctrl_update_habit db hid f valid).2).habits,
      a.streak ≤ a.longest_streak) ∧
    List.Forall₂ (fun a b : HabitRow =>
        b.longest_streak = a.longest_streak ∧ b.streak_reset_count = a.streak_reset_count ∧
        (a.id = hid → b.streak = a.streak + 1) ∧ (a.id ≠ hid → b = a))
      db.habits ((ctrl_increment_streak db hid).2).habits := by
  have hmodel : (habit_increment_streak h).streak = h.streak + 1 ∧
      (habit_increment_streak h).longest_streak = max h.longest_streak (h.streak + 1) ∧
      (habit_increment_streak h).streak ≤ (habit_increment_streak h).longest_streak := by
    unfold habit_increment_streak
    dsimp only
    by_cases hlt : h.longest_streak < h.streak + 1
    · rw [if_pos hlt]
      refine ⟨rfl, ?_, ?_⟩ <;> dsimp only <;> omega
    · rw [if_neg hlt]
      refine ⟨rfl, ?_, ?_⟩ <;> dsimp only <;> omega
  have hresetctr : ∀ (db' : DB), (∀ a ∈ db'.habits, a.streak ≤ a.longest_streak) →
      ∀ a ∈ ((ctrl_increment_reset_counter db' hid).2).habits,
        a.streak ≤ a.longest_streak := by
    intro db' hinv'
    cases hf : findHabit db' hid with
    | none =>
      rw [ctrl_increment_reset_counter_none db' hid hf]
      exact hinv'
    | some h' =>
      rw [ctrl_increment_reset_counter_some db' hid h' hf]
      exact update_data_habit_inv db' hid _ _ (fun r hr => hr) hinv'
  have hreset : ∀ a ∈ ((ctrl_reset_streak db hid).2).habits,
      a.streak ≤ a.longest_streak := by
    unfold ctrl_reset_streak
    simp only []
    split
    · apply hresetctr
      exact update_data_habit_inv db hid _ _ (fun r _ => by simp only []; omega) hinv
    · exact update_data_habit_inv db hid _ _ (fun r _ => by simp only []; omega) hinv
  have hpause : ∀ a ∈ ((ctrl_pause_habit db hid).2).habits,
      a.streak ≤ a.longest_streak := by
    unfold ctrl_pause_habit
    simp only []
    split
    · apply hresetctr
      exact update_data_habit_inv db hid _ _ (fun r _ => by simp only []; omega) hinv
    · exact update_data_habit_inv db hid _ _ (fun r _ => by simp only []; omega) hinv
  refine ⟨hmodel.1, hmodel.2.1, hmodel.2.2, hreset, hpause, ?_, ?_⟩
  · intro f valid
    have happ : ∀ g : UpdateField, ∀ a ∈ ((update_data_habit db hid
        (applyUpdateField g)).2).habits, a.streak ≤ a.longest_streak := by
      intro g
      apply update_data_habit_inv
      · intro r hr
        cases g <;> exact hr
      · exact hinv
    cases hf : findHabit db hid with
    | none =>
      unfold ctrl_update_habit
      rw [hf]
      exact hinv
    | some h' =>
      unfold ctrl_update_habit
      rw [hf]
      dsimp only
      by_cases hv : valid = true
      · rw [if_pos hv]
        cases f with
        | importance v =>
          dsimp only
          by_cases hp : v = "Paused"
          · rw [if_pos hp]
            exact hpause
          · rw [if_neg hp]
            exact happ (UpdateField.importance v)
        | category v => exact happ _
        | description v => exact happ _
        | start v => exact happ _
        | stop v => exact happ _
        | repeat_ v => exact happ _
      · rw [if_neg hv]
        exact hinv
  · cases hf : findHabit db hid with
    | none =>
      rw [ctrl_increment_streak_none db hid hf]
      apply List.forall₂_same.mpr
      intro a ha
      refine ⟨rfl, rfl, ?_, fun _ => rfl⟩
      intro hahid
      exfalso
      unfold findHabit at hf
      rw [List.find?_eq_none] at hf
      have hcon := hf a ha
      rw [hahid] at hcon
      simp at hcon
    | some h' =>
      rw [ctrl_increment_streak_some db hid h' hf,
        update_data_habit_pos db hid _ (findHabit_isSome hf)]
      dsimp only
      rw [List.forall₂_map_right_iff]
      apply List.forall₂_same.mpr
      intro a ha
      by_cases he : (a.id == hid) = true
      · rw [if_pos he]
        rw [beq_iff_eq] at he
        have hae := find_row_eq hids hf ha he
        subst hae
        exact ⟨rfl, rfl, fun _ => rfl, fun hne => absurd he hne⟩
      · rw [if_neg he]
        have hne : a.id ≠ hid := by simpa using he
        exact ⟨rfl, rfl, fun heq => absurd heq hne, fun _ => rfl⟩

/-- C3 witness: the amended theorem applied on the concrete store `dbC3`:
the model-level increment both advances the streak and keeps it below
the longest streak. -/
theorem c3_streak_invariant_witness :
    (habit_increment_streak hrow2).streak = hrow2.streak + 1 ∧
    (habit_increment_streak hrow2).streak ≤ (habit_increment_streak hrow2).longest_streak := by
  have h := c3_streak_invariant hrow2 dbC3 1 (by decide) (by decide)
  exact ⟨h.1, h.2.2.1⟩

/-! ## C1: rollover never resets the streak -/

/-- Task-status updates never touch the habit table. -/
theorem update_task_status_habits (db : DB) (tid : Nat) (s : String) :
    ((update_task_status db tid s).2).habits = db.habits := by
  unfold update_task_status
  split
  · cases hf : findTask db tid with
    | none => rfl
    | some t =>
      dsimp only
      unfold update_data_task
      split <;> rfl
  · rfl

/-- The update loop of `process_task_updates` never touches the habit
table. -/
theorem process_updates_go_habits (status : String) :
    ∀ (ids : List Nat) (tbh : List (Nat × List Date)) (db : DB),
      ((process_updates_go status ids tbh db).db).habits = db.habits := by
  intro ids
  induction ids with
  | nil => intro tbh db; rfl
  | cons tid rest ih =>
    intro tbh db
    unfold process_updates_go
    dsimp only
    by_cases hr : (update_task_status db tid status).1 = true
    · rw [if_pos hr]
      cases hf : findTask (update_task_status db tid status).2 tid with
      | none =>
        dsimp only
        rw [ih _ _, update_task_status_habits]
      | some t =>
        dsimp only
        rw [ih _ _, update_task_status_habits]
    · rw [if_neg hr]
      dsimp only
      rw [ih _ _, update_task_status_habits]

/-- The per-habit streak pass only ever increments streaks. -/
theorem streak_update_dues_forall2 (snap : List TaskRow) (hid : Nat) :
    ∀ (dues : List Date) (db : DB), (db.habits.map HabitRow.id).Nodup →
      List.Forall₂ StreakMono db.habits (streak_update_dues snap hid dues db).habits := by
  intro dues
  induction dues with
  | nil => intro db _; exact streakMono_refl _
  | cons due rest ih =>
    intro db hnd
    unfold streak_update_dues
    split
    · exact ctrl_increment_streak_forall2 db hid hnd
    · exact ih db hnd

theorem streak_fold_forall2 (snap : List TaskRow) :
    ∀ (tbh : List (Nat × List Date)) (db : DB), (db.habits.map HabitRow.id).Nodup →
      List.Forall₂ StreakMono db.habits
        (tbh.foldl (fun acc p => streak_update_dues snap p.1 p.2 acc) db).habits := by
  intro tbh
  induction tbh with
  | nil => intro db _; exact streakMono_refl _
  | cons p rest ih =>
    intro db hnd
    rw [List.foldl_cons]
    have h1 := streak_update_dues_forall2 snap p.1 p.2 db hnd
    have hnd' : ((streak_update_dues snap p.1 p.2 db).habits.map HabitRow.id).Nodup := by
      rw [streakMono_map_id h1]
      exact hnd
    exact streakMono_trans h1 (ih _ hnd')

theorem handle_streak_updates_forall2 (db : DB) (tbh : List (Nat × List Date))
    (hnd : (db.habits.map HabitRow.id).Nodup) :
    List.Forall₂ StreakMono db.habits (handle_streak_updates db tbh).habits :=
  streak_fold_forall2 db.tasks tbh db hnd

/-- Raw task inserts never touch the habit table. -/
theorem create_data_task_habits (db : DB) (td : TaskData) :
    ((create_data_task db td).2).habits = db.habits := by
  unfold create_data_task
  split <;> rfl

theorem create_task_set_go_habits (hid : Nat) (desc : String) (due : Date) :
    ∀ (nums : List Nat) (db : DB),
      ((create_task_set_go hid desc due nums db).2).habits = db.habits := by
  intro nums
  induction nums with
  | nil => intro db; rfl
  | cons num rest ih =>
    intro db
    unfold create_task_set_go
    dsimp only
    rw [ih _, create_data_task_habits]

/-- The controller-level next-series creation never touches the habit
table. -/
theorem create_next_tasks_habits (db : DB) (hid : Nat) (due : Date)
    (tasks : List TaskRow) :
    ((create_next_tasks db hid due tasks).2).habits = db.habits := by
  unfold create_next_tasks
  cases hf : findHabit db hid with
  | none => rfl
  | some h =>
    dsimp only
    cases hs : h.stop with
    | none => rfl
    | some stop =>
      dsimp only
      split
      · rfl
      · exact create_task_set_go_habits hid h.tasks_description _ _ db

theorem create_next_tasks_dues_habits (hid : Nat) :
    ∀ (dues : List Date) (db : DB),
      (create_next_tasks_dues hid dues db).habits = db.habits := by
  intro dues
  induction dues with
  | nil => intro db; rfl
  | cons due rest ih =>
    intro db
    unfold create_next_tasks_dues
    dsimp only
    rw [ih _]
    split
    · rfl
    · split
      · exact create_next_tasks_habits db hid due _
      · rfl

theorem overview_create_next_tasks_habits (db : DB) (tbh : List (Nat × List Date)) :
    (overview_create_next_tasks db tbh).habits = db.habits := by
  unfold overview_create_next_tasks
  induction tbh generalizing db with
  | nil => rfl
  | cons p rest ih =>
    rw [List.foldl_cons, ih _, create_next_tasks_dues_habits]

/-- The two tasks of the series due 2024-01-05 of habit `hrow1`: the first
already done, the second still pending. -/
def trowC1a : TaskRow :=
  { id := 1, habit_id := 1, task_number := 1, task_description := "Lace up",
    due_date := ⟨2024, 1, 5⟩, status := "done" }

/-- The pending second task of the series. -/
def trowC1b : TaskRow :=
  { id := 2, habit_id := 1, task_number := 2, task_description := "Lace up",
    due_date := ⟨2024, 1, 5⟩, status := "pending" }

/-- Store in which resolving task 2 to ignore makes the series
Resolved-Mixed. -/
def dbC1 : DB :=
  { habits := [hrow1], tasks := [trowC1a, trowC1b], nextHabitId := 2, nextTaskId := 3 }

/-- C1 counterexample.  Resolving the last open task of the series to
ignore makes the series Resolved-Mixed (statuses done, ignore), but the
rollover pipeline leaves the habit's streak at 2 and its reset count at
0 — the claimed streak reset to 0 and reset-count increment never
happen, because no path of `process_task_updates` calls
`reset_streak`. -/
theorem c1_counterexample :
    (((process_task_updates dbC1 [2] "ignore").2).habits.map
        (fun a => (a.id, a.streak, a.streak_reset_count))) = [(1, 2, 0)] ∧
    ((tasksFor (process_task_updates dbC1 [2] "ignore").2 1 ⟨2024, 1, 5⟩).map
        TaskRow.status) = ["done", "ignore"] := by
  exact ⟨by decide, by decide⟩

/-- C1 (amended): the rollover evaluation triggered by task resolutions
never resets a streak and never touches a reset count: across
`process_task_updates`, every habit row keeps its id, name, reset count
and longest streak, and its streak can only grow (it is incremented on
the all-done path and left unchanged otherwise — in particular a
Resolved-Mixed series leaves the streak state exactly as it was). -/
theorem c1_rollover_no_reset (db : DB) (ids : List Nat) (status : String)
    (hnd : (db.habits.map HabitRow.id).Nodup) :
    List.Forall₂ StreakMono db.habits
      ((process_task_updates db ids status).2).habits := by
  unfold process_task_updates
  dsimp only
  rw [overview_create_next_tasks_habits]
  have h1 := process_updates_go_habits status ids [] db
  split
  · have h2 := handle_streak_updates_forall2 (process_updates_go status ids [] db).db
      (process_updates_go status ids [] db).tbh (by rw [h1]; exact hnd)
    rw [h1] at h2
    exact h2
  · rw [h1]
    exact streakMono_refl _

/-- C1 witness: the amended theorem applied on the concrete
Resolved-Mixed scenario. -/
theorem c1_rollover_no_reset_witness :
    List.Forall₂ StreakMono dbC1.habits
      ((process_task_updates dbC1 [2] "ignore").2).habits :=
  c1_rollover_no_reset dbC1 [2] "ignore" (by decide)

/-! ## Helper lemmas about series creation -/

theorem range'_nodup (s n : Nat) : (List.range' s n).Nodup := by
  induction n generalizing s with
  | zero => exact List.nodup_nil
  | succ n ih =>
    rw [List.range'_succ]
    refine List.Nodup.cons ?_ (ih (s + 1))
    rw [List.mem_range'_1]
    omega

/-- The row inserted by a successful `create_data('task', ...)`. -/
def inserted_task (db : DB) (td : TaskData) : TaskRow :=
  { id := db.nextTaskId, habit_id := td.habit_id, task_number := td.task_number,
    task_description := td.task_description, due_date := td.due_date,
    status := td.status }

/-- The store after a successful `create_data('task', ...)`. -/
def db_after_task_insert (db : DB) (td : TaskData) : DB :=
  { db with tasks := db.tasks ++ [inserted_task db td], nextTaskId := db.nextTaskId + 1 }

theorem create_data_task_pos (db : DB) (td : TaskData) (h : taskDup db td = false) :
    create_data_task db td = (Int.ofNat db.nextTaskId, db_after_task_insert db td) := by
  unfold create_data_task db_after_task_insert inserted_task
  rw [if_neg (by rw [h]; exact Bool.false_ne_true)]

theorem create_data_task_neg (db : DB) (td : TaskData) (h : taskDup db td = true) :
    create_data_task db td = (-1, db) := by
  unfold create_data_task
  rw [if_pos h]

/-- The row inserted by a successful `create_data('habit', ...)`; the
streak counters start at zero. -/
def inserted_habit (db : DB) (d : HabitData) : HabitRow :=
  { id := db.nextHabitId, name := d.name, category := d.category,
    description := d.description, start := d.start, stop := some d.stop,
    importance := d.importance, repeat_ := d.repeat_, tasks := d.tasks,
    tasks_description := d.tasks_description, streak := 0,
    streak_reset_count := 0, longest_streak := 0 }

/-- The store after a successful `create_data('habit', ...)`. -/
def db_after_habit_insert (db : DB) (d : HabitData) : DB :=
  { db with
      habits := db.habits ++ [inserted_habit db d],
      nextHabitId := db.nextHabitId + 1 }

theorem create_data_habit_pos (db : DB) (d : HabitData)
    (h : habitDup db d.name d.description = false) :
    create_data_habit db d = (Int.ofNat db.nextHabitId, db_after_habit_insert db d) := by
  unfold create_data_habit db_after_habit_insert inserted_habit
  rw [if_neg (by rw [h]; exact Bool.false_ne_true)]

theorem taskDup_false_of (db : DB) (td : TaskData)
    (H : ∀ t ∈ db.tasks, ¬(t.task_description = td.task_description ∧
      t.habit_id = td.habit_id ∧ t.task_number = td.task_number ∧
      t.due_date = td.due_date)) :
    taskDup db td = false := by
  unfold taskDup
  rw [List.any_eq_false]
  intro t ht
  have := H t ht
  simp only [Bool.and_eq_true, beq_iff_eq]
  tauto

/-- The shape of one row of a freshly created series. -/
def SeriesRow (hid : Nat) (desc : String) (due : Date) (t : TaskRow) (n : Nat) : Prop :=
  t.habit_id = hid ∧ t.task_number = n ∧ t.task_description = desc ∧
    t.due_date = due ∧ t.status = "pending"

theorem series_forall2_facts {hid : Nat} {desc : String} {due : Date}
    {new : List TaskRow} {nums : List Nat}
    (h : List.Forall₂ (SeriesRow hid desc due) new nums) :
    new.filter (fun t => t.habit_id == hid && t.due_date == due) = new ∧
    new.map (fun t => (t.task_number, t.status)) =
      nums.map (fun n => (n, "pending")) := by
  induction h with
  | nil => exact ⟨rfl, rfl⟩
  | cons hd tl ih =>
    obtain ⟨f1, f2, f3, f4, f5⟩ := hd
    obtain ⟨i1, i2⟩ := ih
    constructor
    · rw [List.filter_cons, if_pos (by simp [f1, f4]), i1]
    · rw [List.map_cons, List.map_cons, i2, f2, f5]

/-- In a store with no conflicting tasks, the habit-creation task loop
inserts exactly one fresh pending task per requested number, in order. -/
theorem create_habit_tasks_go_clean (hid : Nat) (desc : String) (due : Date) :
    ∀ (nums : List Nat) (db : DB),
      nums.Nodup →
      (∀ t ∈ db.tasks, t.habit_id = hid → t.due_date = due →
        t.task_description = desc → t.task_number ∉ nums) →
      ∃ new : List TaskRow,
        (create_habit_tasks_go hid desc due nums db).2.tasks = db.tasks ++ new ∧
        (create_habit_tasks_go hid desc due nums db).2.habits = db.habits ∧
        (create_habit_tasks_go hid desc due nums db).2.nextHabitId = db.nextHabitId ∧
        (create_habit_tasks_go hid desc due nums db).1.length = nums.length ∧
        List.Forall₂ (SeriesRow hid desc due) new nums := by
  intro nums
  induction nums with
  | nil =>
    intro db hnd H
    exact ⟨[], by simp [create_habit_tasks_go], rfl, rfl, rfl, List.Forall₂.nil⟩
  | cons num rest ih =>
    intro db hnd H
    have hdup : taskDup db
        { habit_id := hid, task_number := num, task_description := desc,
          due_date := due, status := "pending" } = false := by
      apply taskDup_false_of
      intro t ht hc
      have hni := H t ht hc.2.1 hc.2.2.2 hc.1
      rw [hc.2.2.1] at hni
      exact hni (List.mem_cons_self _ _)
    unfold create_habit_tasks_go
    rw [create_data_task_pos db _ hdup]
    dsimp only
    rw [if_pos (show (0 : Int) ≤ Int.ofNat db.nextTaskId from Int.ofNat_nonneg _)]
    have hH1 : ∀ t ∈ (db_after_task_insert db
        { habit_id := hid, task_number := num, task_description := desc,
          due_date := due, status := "pending" }).tasks,
        t.habit_id = hid → t.due_date = due → t.task_description = desc →
        t.task_number ∉ rest := by
      intro t ht h1 h2 h3
      unfold db_after_task_insert at ht
      rw [List.mem_append] at ht
      cases ht with
      | inl hold =>
        have := H t hold h1 h2 h3
        intro hin
        exact this (List.mem_cons_of_mem _ hin)
      | inr hnew =>
        rw [List.mem_singleton] at hnew
        subst hnew
        exact (List.nodup_cons.mp hnd).1
    obtain ⟨new', e1, e2, e3, e4, e5⟩ := ih
      (db_after_task_insert db
        { habit_id := hid, task_number := num, task_description := desc,
          due_date := due, status := "pending" })
      (List.nodup_cons.mp hnd).2 hH1
    refine ⟨inserted_task db
      { habit_id := hid, task_number := num, task_description := desc,
        due_date := due, status := "pending" } :: new', ?_, ?_, ?_, ?_,
      List.Forall₂.cons ⟨rfl, rfl, rfl, rfl, rfl⟩ e5⟩
    · rw [e1]
      unfold db_after_task_insert
      dsimp only
      rw [List.append_assoc]
      rfl
    · rw [e2]
      rfl
    · rw [e3]
      rfl
    · rw [List.length_cons, List.length_cons, e4]

/-! ## C4: a fresh habit's initial series -/

theorem db_after_habit_insert_tasks (db : DB) (d : HabitData) :
    (db_after_habit_insert db d).tasks = db.tasks := rfl

/-- C4: for every valid habit input, in a store with no duplicate-name
habit and no task referencing the soon-to-be-assigned habit id,
`create_habit` succeeds with the fresh id, and listing the tasks for
(habit id, start date) yields exactly task-count tasks, numbered
1..task-count in order, every one of them pending. -/
theorem c4_create_habit_series (db : DB) (d : HabitData)
    (hval : validate_habit_data d = true)
    (hdup : habitDup db (normalize_habit_data d).name
      (normalize_habit_data d).description = false)
    (hfresh : ∀ t ∈ db.tasks, t.habit_id ≠ db.nextHabitId) :
    (create_habit db d).1 = some db.nextHabitId ∧
    (tasksFor (create_habit db d).2 db.nextHabitId d.start).length = d.tasks ∧
    ((tasksFor (create_habit db d).2 db.nextHabitId d.start).map
        (fun t => (t.task_number, t.status))) =
      (List.range' 1 d.tasks).map (fun n => (n, "pending")) := by
  have htasks_pos : 1 ≤ d.tasks := by
    unfold validate_habit_data at hval
    simp only [Bool.and_eq_true, decide_eq_true_eq] at hval
    tauto
  unfold create_habit
  rw [if_pos hval]
  dsimp only
  rw [create_data_habit_pos db (normalize_habit_data d) hdup]
  dsimp only
  rw [if_neg (show ¬ (Int.ofNat db.nextHabitId < 0) from
    Int.not_lt.mpr (Int.ofNat_nonneg _))]
  have htn : (Int.ofNat db.nextHabitId).toNat = db.nextHabitId := rfl
  rw [htn]
  unfold create_habit_tasks
  dsimp only
  have hH : ∀ t ∈ (db_after_habit_insert db (normalize_habit_data d)).tasks,
      t.habit_id = db.nextHabitId →
      t.due_date = (normalize_habit_data d).start →
      t.task_description = (normalize_habit_data d).tasks_description →
      t.task_number ∉ List.range' 1 (normalize_habit_data d).tasks := by
    intro t ht h1 _ _
    rw [db_after_habit_insert_tasks] at ht
    exact absurd h1 (hfresh t ht)
  obtain ⟨new, e1, e2, e3, e4, e5⟩ := create_habit_tasks_go_clean db.nextHabitId
    (normalize_habit_data d).tasks_description (normalize_habit_data d).start
    (List.range' 1 (normalize_habit_data d).tasks)
    (db_after_habit_insert db (normalize_habit_data d))
    (range'_nodup _ _) hH
  have hlen : (create_habit_tasks_go db.nextHabitId
      (normalize_habit_data d).tasks_description (normalize_habit_data d).start
      (List.range' 1 (normalize_habit_data d).tasks)
      (db_after_habit_insert db (normalize_habit_data d))).1.length =
      (normalize_habit_data d).tasks := by
    rw [e4, List.length_range']
  have hne : ¬ ((create_habit_tasks_go db.nextHabitId
      (normalize_habit_data d).tasks_description (normalize_habit_data d).start
      (List.range' 1 (normalize_habit_data d).tasks)
      (db_after_habit_insert db (normalize_habit_data d))).1.isEmpty = true) := by
    rw [List.isEmpty_iff]
    intro h0
    rw [h0] at hlen
    have : (normalize_habit_data d).tasks = d.tasks := rfl
    rw [this] at hlen
    simp at hlen
    omega
  rw [if_pos (by rw [Bool.not_eq_true] at hne; rw [hne]; rfl)]
  have hstart : (normalize_habit_data d).start = d.start := rfl
  have hntasks : (normalize_habit_data d).tasks = d.tasks := rfl
  have hfilter : tasksFor (create_habit_tasks_go db.nextHabitId
      (normalize_habit_data d).tasks_description (normalize_habit_data d).start
      (List.range' 1 (normalize_habit_data d).tasks)
      (db_after_habit_insert db (normalize_habit_data d))).2 db.nextHabitId d.start =
      new := by
    unfold tasksFor
    rw [e1, db_after_habit_insert_tasks, List.filter_append]
    have hold : db.tasks.filter
        (fun t => t.habit_id == db.nextHabitId && t.due_date == d.start) = [] := by
      rw [List.filter_eq_nil_iff]
      intro t ht hc
      simp only [Bool.and_eq_true, beq_iff_eq] at hc
      exact hfresh t ht hc.1
    rw [hold]
    have hf := (series_forall2_facts e5).1
    rw [hstart] at hf
    rw [hf]
    rfl
  refine ⟨rfl, ?_, ?_⟩
  · rw [hfilter, e5.length_eq, List.length_range', hntasks]
  · rw [hfilter, (series_forall2_facts e5).2, hntasks]

/-- The empty store. -/
def dbEmpty : DB := { habits := [], tasks := [], nextHabitId := 1, nextTaskId := 1 }

/-- C4 witness: creating the fixture habit in the empty store yields three
pending tasks numbered 1..3 for (habit 1, 2024-01-01). -/
theorem c4_create_habit_series_witness :
    (create_habit dbEmpty hdata1).1 = some dbEmpty.nextHabitId ∧
    ((tasksFor (create_habit dbEmpty hdata1).2 dbEmpty.nextHabitId hdata1.start).map
        (fun t => (t.task_number, t.status))) =
      [(1, "pending"), (2, "pending"), (3, "pending")] := by
  have h := c4_create_habit_series dbEmpty hdata1 (by decide) (by decide)
    (by intro t ht; simp [dbEmpty] at ht)
  refine ⟨h.1, ?_⟩
  rw [h.2.2]
  decide

/-! ## C2: rollback of failed habit creation -/

/-- Without any cleanliness assumption, the habit-creation task loop only
appends tasks of the new habit, touches nothing else, and returns an
empty id list exactly when it created no task. -/
theorem create_habit_tasks_go_general (hid : Nat) (desc : String) (due : Date) :
    ∀ (nums : List Nat) (db : DB),
      ∃ new : List TaskRow,
        (create_habit_tasks_go hid desc due nums db).2.tasks = db.tasks ++ new ∧
        (create_habit_tasks_go hid desc due nums db).2.habits = db.habits ∧
        (create_habit_tasks_go hid desc due nums db).2.nextHabitId = db.nextHabitId ∧
        (∀ t ∈ new, t.habit_id = hid) ∧
        ((create_habit_tasks_go hid desc due nums db).1 = [] ↔ new = []) := by
  intro nums
  induction nums with
  | nil =>
    intro db
    exact ⟨[], by simp [create_habit_tasks_go], rfl, rfl, by simp,
      by simp [create_habit_tasks_go]⟩
  | cons num rest ih =>
    intro db
    unfold create_habit_tasks_go
    cases hdup : taskDup db
        { habit_id := hid, task_number := num, task_description := desc,
          due_date := due, status := "pending" } with
    | true =>
      rw [create_data_task_neg db _ hdup]
      dsimp only
      rw [if_neg (by decide : ¬ ((0 : Int) ≤ -1))]
      obtain ⟨new, e1, e2, e3, e4, e5⟩ := ih db
      exact ⟨new, e1, e2, e3, e4, e5⟩
    | false =>
      rw [create_data_task_pos db _ hdup]
      dsimp only
      rw [if_pos (show (0 : Int) ≤ Int.ofNat db.nextTaskId from Int.ofNat_nonneg _)]
      obtain ⟨new, e1, e2, e3, e4, e5⟩ := ih (db_after_task_insert db
        { habit_id := hid, task_number := num, task_description := desc,
          due_date := due, status := "pending" })
      refine ⟨inserted_task db
        { habit_id := hid, task_number := num, task_description := desc,
          due_date := due, status := "pending" } :: new, ?_, ?_, ?_, ?_, by simp⟩
      · rw [e1]
        unfold db_after_task_insert
        dsimp only
        rw [List.append_assoc]
        rfl
      · rw [e2]
        rfl
      · rw [e3]
        rfl
      · intro t ht
        cases List.mem_cons.mp ht with
        | inl h0 =>
          subst h0
          rfl
        | inr h0 => exact e4 t h0

/-- A stale task row referencing the id the next habit insert will get,
with the same description, number 2 and due date as the series about to
be created. -/
def trowPlant : TaskRow :=
  { id := 50, habit_id := 1, task_number := 2, task_description := "Lace up",
    due_date := ⟨2024, 1, 1⟩, status := "pending" }

/-- Store in which the second task insert of `hdata1`'s series collides
with `trowPlant` and fails. -/
def dbC2 : DB := { habits := [], tasks := [trowPlant], nextHabitId := 1, nextTaskId := 51 }

/-- C2 counterexample.  Creating `hdata1` (task-count 3) in `dbC2` fails
partway through series generation: inserts for numbers 1 and 3 succeed
(new ids 51, 52) but the insert for number 2 is rejected as a duplicate
of the stale row.  The claim demands the habit and all created tasks be
deleted and the operation report failure; instead `create_habit` reports
success with the new habit id and leaves the habit and the partial
series in place. -/
theorem c2_counterexample :
    (create_habit dbC2 hdata1).1 = some 1 ∧
    (((create_habit dbC2 hdata1).2).habits.map HabitRow.id) = [1] ∧
    ((((create_habit dbC2 hdata1).2).tasks.filter
        (fun t => t.habit_id == 1)).map TaskRow.id) = [50, 51, 52] := by
  exact ⟨by decide, by decide, by decide⟩

/-- C2 (amended): `create_habit` rolls back only when no task at all could
be created: on any failure (validation, duplicate habit, or an entirely
failed series) the habit table is left as it was and no new task
remains; but whenever at least one task of the series was created,
`create_habit` reports success and returns the new habit id, leaving the
partially-populated series in place. -/
theorem c2_create_habit_rollback (db : DB) (d : HabitData)
    (hfresh : ∀ h ∈ db.habits, h.id ≠ db.nextHabitId) :
    ((create_habit db d).1 = none →
      ((create_habit db d).2).habits = db.habits ∧
      (∀ t ∈ ((create_habit db d).2).tasks, t ∈ db.tasks)) ∧
    (∀ hid, (create_habit db d).1 = some hid →
      hid = db.nextHabitId ∧
      ∃ h ∈ ((create_habit db d).2).habits, h.id = hid ∧ h.streak = 0 ∧
        h.streak_reset_count = 0 ∧ h.longest_streak = 0) := by
  by_cases hval : validate_habit_data d = true
  · unfold create_habit
    rw [if_pos hval]
    dsimp only
    by_cases hdup : habitDup db (normalize_habit_data d).name
        (normalize_habit_data d).description = true
    · have hd : create_data_habit db (normalize_habit_data d) = (-1, db) := by
        unfold create_data_habit
        rw [if_pos hdup]
      rw [hd]
      dsimp only
      rw [if_pos (by decide : (-1 : Int) < 0)]
      refine ⟨fun _ => ⟨rfl, fun t ht => ht⟩, ?_⟩
      intro hid hsome
      simp at hsome
    · have hdup' : habitDup db (normalize_habit_data d).name
          (normalize_habit_data d).description = false := by
        rw [Bool.not_eq_true] at hdup
        exact hdup
      rw [create_data_habit_pos db _ hdup']
      dsimp only
      rw [if_neg (show ¬ (Int.ofNat db.nextHabitId < 0) from
        Int.not_lt.mpr (Int.ofNat_nonneg _))]
      have htn : (Int.ofNat db.nextHabitId).toNat = db.nextHabitId := rfl
      rw [htn]
      unfold create_habit_tasks
      dsimp only
      obtain ⟨new, e1, e2, e3, e4, e5⟩ := create_habit_tasks_go_general db.nextHabitId
        (normalize_habit_data d).tasks_description (normalize_habit_data d).start
        (List.range' 1 (normalize_habit_data d).tasks)
        (db_after_habit_insert db (normalize_habit_data d))
      by_cases hids : (create_habit_tasks_go db.nextHabitId
          (normalize_habit_data d).tasks_description (normalize_habit_data d).start
          (List.range' 1 (normalize_habit_data d).tasks)
          (db_after_habit_insert db (normalize_habit_data d))).1.isEmpty = true
      · rw [if_neg (by rw [hids]; decide)]
        have hnew : new = [] := e5.mp (List.isEmpty_iff.mp hids)
        subst hnew
        refine ⟨fun _ => ⟨?_, ?_⟩, ?_⟩
        · unfold delete_data_habit
          dsimp only
          rw [e2]
          unfold db_after_habit_insert
          dsimp only
          rw [List.filter_append]
          have hrow : [inserted_habit db (normalize_habit_data d)].filter
              (fun h => !(h.id == db.nextHabitId)) = [] := by
            simp [inserted_habit]
          rw [hrow, List.append_nil]
          apply List.filter_eq_self.mpr
          intro a ha
          simp only [Bool.not_eq_true']
          rw [beq_eq_false_iff_ne]
          exact hfresh a ha
        · intro t ht
          unfold delete_data_habit at ht
          dsimp only at ht
          rw [e1, List.append_nil, db_after_habit_insert_tasks] at ht
          exact (List.mem_filter.mp ht).1
        · intro hid hsome
          simp at hsome
      · rw [Bool.not_eq_true] at hids
        rw [if_pos (by rw [hids]; rfl)]
        refine ⟨fun hnone => by simp at hnone, ?_⟩
        intro hid hsome
        simp only [] at hsome
        have hh : db.nextHabitId = hid := by
          exact Option.some.inj hsome
        refine ⟨hh.symm, ?_⟩
        refine ⟨inserted_habit db (normalize_habit_data d), ?_, ?_, rfl, rfl, rfl⟩
        · rw [e2]
          unfold db_after_habit_insert
          dsimp only
          exact List.mem_append_right _ (List.mem_singleton_self _)
        · rw [← hh]
          rfl
  · unfold create_habit
    rw [if_neg hval]
    refine ⟨fun _ => ⟨rfl, fun t ht => ht⟩, ?_⟩
    intro hid hsome
    simp at hsome

/-- C2 witness: the amended theorem applied on the partial-failure
scenario: `create_habit` reports success with habit id 1 and the habit
row is present with zeroed counters. -/
theorem c2_create_habit_rollback_witness :
    (1 : Nat) = dbC2.nextHabitId ∧
    ∃ h ∈ ((create_habit dbC2 hdata1).2).habits, h.id = 1 ∧ h.streak = 0 ∧
      h.streak_reset_count = 0 ∧ h.longest_streak = 0 :=
  (c2_create_habit_rollback dbC2 hdata1 (by decide)).2 1 (by decide)

/-! ## C5: rollover boundary at the habit's end date -/

/-- In a store with no conflicting tasks at the target due date, the
model-level series loop succeeds and appends exactly the numbered
pending tasks. -/
theorem create_task_series_go_clean (hid : Nat) (desc : String) (due : Date) :
    ∀ (nums : List Nat) (db : DB),
      nums.Nodup →
      (∀ t ∈ db.tasks, t.habit_id = hid → t.due_date = due →
        t.task_description = desc → t.task_number ∉ nums) →
      ∃ new : List TaskRow,
        (create_task_series_go hid desc due nums db).1 = true ∧
        (create_task_series_go hid desc due nums db).2.tasks = db.tasks ++ new ∧
        (create_task_series_go hid desc due nums db).2.habits = db.habits ∧
        List.Forall₂ (SeriesRow hid desc due) new nums := by
  intro nums
  induction nums with
  | nil =>
    intro db hnd H
    exact ⟨[], rfl, by simp [create_task_series_go], rfl, List.Forall₂.nil⟩
  | cons num rest ih =>
    intro db hnd H
    have hdup : taskDup db
        { habit_id := hid, task_number := num, task_description := desc,
          due_date := due, status := "pending" } = false := by
      apply taskDup_false_of
      intro t ht hc
      have hni := H t ht hc.2.1 hc.2.2.2 hc.1
      rw [hc.2.2.1] at hni
      exact hni (List.mem_cons_self _ _)
    unfold create_task_series_go
    rw [create_data_task_pos db _ hdup]
    dsimp only
    rw [if_neg (show ¬ (Int.ofNat db.nextTaskId < 0) from
      Int.not_lt.mpr (Int.ofNat_nonneg _))]
    have hH1 : ∀ t ∈ (db_after_task_insert db
        { habit_id := hid, task_number := num, task_description := desc,
          due_date := due, status := "pending" }).tasks,
        t.habit_id = hid → t.due_date = due → t.task_description = desc →
        t.task_number ∉ rest := by
      intro t ht h1 h2 h3
      unfold db_after_task_insert at ht
      rw [List.mem_append] at ht
      cases ht with
      | inl hold =>
        have := H t hold h1 h2 h3
        intro hin
        exact this (List.mem_cons_of_mem _ hin)
      | inr hnew =>
        rw [List.mem_singleton] at hnew
        subst hnew
        exact (List.nodup_cons.mp hnd).1
    obtain ⟨new', e0, e1, e2, e5⟩ := ih
      (db_after_task_insert db
        { habit_id := hid, task_number := num, task_description := desc,
          due_date := due, status := "pending" })
      (List.nodup_cons.mp hnd).2 hH1
    refine ⟨inserted_task db
      { habit_id := hid, task_number := num, task_description := desc,
        due_date := due, status := "pending" } :: new', e0, ?_, ?_,
      List.Forall₂.cons ⟨rfl, rfl, rfl, rfl, rfl⟩ e5⟩
    · rw [e1]
      unfold db_after_task_insert
      dsimp only
      rw [List.append_assoc]
      rfl
    · rw [e2]
      rfl

/-- C5: for every habit with an end date, rollover creates the next series
exactly when the computed next due date is on or before the end date —
equality still generates a full fresh series, while a strictly later
next due date returns false with the store untouched and no series at
the next due date. -/
theorem c5_create_next_series (db : DB) (hid : Nat) (due nd e : Date) (h : HabitRow)
    (hfind : findHabit db hid = some h)
    (hstop : h.stop = some e)
    (hnext : get_next_date due h.repeat_ = some nd)
    (hclean : ∀ t ∈ db.tasks, t.habit_id = hid → t.due_date ≠ nd) :
    (dateLeb nd e = true →
      (create_next_series db hid due).1 = true ∧
      (tasksFor (create_next_series db hid due).2 hid nd).length = h.tasks ∧
      ((tasksFor (create_next_series db hid due).2 hid nd).map
          (fun t => (t.task_number, t.status))) =
        (List.range' 1 h.tasks).map (fun n => (n, "pending"))) ∧
    (dateLeb nd e = false →
      create_next_series db hid due = (false, db) ∧
      tasksFor db hid nd = []) := by
  unfold create_next_series
  rw [hfind]
  dsimp only
  rw [hnext]
  dsimp only
  have hip : is_past_end_date nd h.stop = dateLtb e nd := by
    unfold is_past_end_date
    rw [hstop]
  rw [hip]
  have hempty : tasksFor db hid nd = [] := by
    unfold tasksFor
    rw [List.filter_eq_nil_iff]
    intro t ht hc
    simp only [Bool.and_eq_true, beq_iff_eq] at hc
    exact hclean t ht hc.1 hc.2
  constructor
  · intro hle
    have hlt : dateLtb e nd = false := (dateLtb_false_iff_dateLeb e nd).mpr hle
    rw [if_neg (show ¬ (dateLtb e nd = true) from by
      rw [hlt]; exact Bool.false_ne_true)]
    unfold create_task_series
    obtain ⟨new, e0, e1, e2, e5⟩ := create_task_series_go_clean hid
      h.tasks_description nd (List.range' 1 h.tasks) db (range'_nodup _ _)
      (by intro t ht h1 h2 _; exact absurd h2 (hclean t ht h1))
    refine ⟨e0, ?_, ?_⟩
    · unfold tasksFor
      rw [e1, List.filter_append]
      unfold tasksFor at hempty
      rw [hempty, List.nil_append, (series_forall2_facts e5).1, e5.length_eq,
        List.length_range']
    · unfold tasksFor
      rw [e1, List.filter_append]
      unfold tasksFor at hempty
      rw [hempty, List.nil_append, (series_forall2_facts e5).1,
        (series_forall2_facts e5).2]
  · intro hle
    have hlt : dateLtb e nd = true := by
      cases hx : dateLtb e nd with
      | true => rfl
      | false =>
        have hy := (dateLtb_false_iff_dateLeb e nd).mp hx
        rw [hle] at hy
        exact absurd hy Bool.false_ne_true
    rw [if_pos hlt]
    exact ⟨rfl, hempty⟩

/-- A daily habit with end date 2024-01-10 and two tasks per series. -/
def hrow3 : HabitRow :=
  { id := 1, name := "Walk", category := "Health", description := "Daily walk",
    start := ⟨2024, 1, 1⟩, stop := some ⟨2024, 1, 10⟩, importance := "High",
    repeat_ := "Daily", tasks := 2, tasks_description := "Shoes on",
    streak := 0, streak_reset_count := 0, longest_streak := 0 }

/-- Store holding only `hrow3`. -/
def dbC5 : DB := { habits := [hrow3], tasks := [], nextHabitId := 2, nextTaskId := 1 }

/-- C5 witness: rolling over the series due 2024-01-09 creates the series
due 2024-01-10 (equal to the end date — still generated), while rolling
over the series due 2024-01-10 computes 2024-01-11, which is past the
end date: no new series and the store is unchanged. -/
theorem c5_create_next_series_witness :
    (create_next_series dbC5 1 ⟨2024, 1, 9⟩).1 = true ∧
    ((tasksFor (create_next_series dbC5 1 ⟨2024, 1, 9⟩).2 1 ⟨2024, 1, 10⟩).map
        (fun t => (t.task_number, t.status))) = [(1, "pending"), (2, "pending")] ∧
    create_next_series dbC5 1 ⟨2024, 1, 10⟩ = (false, dbC5) := by
  have h1 := c5_create_next_series dbC5 1 ⟨2024, 1, 9⟩ ⟨2024, 1, 10⟩ ⟨2024, 1, 10⟩
    hrow3 (by decide) rfl (by decide) (by decide)
  have h2 := c5_create_next_series dbC5 1 ⟨2024, 1, 10⟩ ⟨2024, 1, 11⟩ ⟨2024, 1, 10⟩
    hrow3 (by decide) rfl (by decide) (by decide)
  have ha := h1.1 (by decide)
  have hb := h2.2 (by decide)
  refine ⟨ha.1, ?_, hb.1⟩
  rw [ha.2.2]
  decide

/-! ## C8: the success-rate computation
(src/models/analytics.py 38-80 and 230-257, src/controllers/analytics.py
79-110) -/

/-- Spec-side description of the periods: one period per distinct grouping
key occurring among the habit's tasks (the due date itself for Daily, the
Monday of the due date's week for Weekly). -/
def spec_period_keys (tasks : List TaskRow) (rep : String) : List Date :=
  (tasks.map (fun u => period_key rep u.due_date)).dedup

/-- Spec-side: every task of the period with key `k` is done. -/
def period_all_done (tasks : List TaskRow) (rep : String) (k : Date) : Bool :=
  (tasks.filter (fun u => period_key rep u.due_date == k)).all
    (fun u => u.status == "done")

/-- One `group_insert` step preserves the grouping invariants: the keys
stay pairwise distinct, the key set grows by the key of the inserted
task, and every group still holds exactly the processed tasks with its
key. -/
theorem group_insert_spec (gs : List (Date × List TaskRow)) (k : Date) (t : TaskRow)
    (pre : List TaskRow) (rep : String) (hk : k = period_key rep t.due_date)
    (h1 : (gs.map Prod.fst).Nodup)
    (h2 : ∀ k', k' ∈ gs.map Prod.fst ↔ k' ∈ pre.map (fun u => period_key rep u.due_date))
    (h3 : ∀ g ∈ gs, g.2 = pre.filter (fun u => period_key rep u.due_date == g.1)) :
    ((group_insert gs k t).map Prod.fst).Nodup ∧
      (∀ k', k' ∈ (group_insert gs k t).map Prod.fst ↔
        k' ∈ (pre ++ [t]).map (fun u => period_key rep u.due_date)) ∧
      (∀ g ∈ group_insert gs k t,
        g.2 = (pre ++ [t]).filter (fun u => period_key rep u.due_date == g.1)) := by
  unfold group_insert
  by_cases hmem : gs.any (fun p => p.1 == k) = true
  · rw [if_pos hmem]
    have hfst : ((gs.map (fun p => if p.1 == k then (p.1, p.2 ++ [t]) else p)).map Prod.fst)
        = gs.map Prod.fst := by
      rw [List.map_map]
      apply List.map_congr_left
      intro p _
      simp only [Function.comp_apply]
      by_cases hp1 : (p.1 == k) = true
      · rw [if_pos hp1]
      · rw [if_neg hp1]
    have hkin : k ∈ gs.map Prod.fst := by
      rw [List.any_eq_true] at hmem
      obtain ⟨p, hp, hpk⟩ := hmem
      rw [beq_iff_eq] at hpk
      exact List.mem_map.mpr ⟨p, hp, hpk⟩
    refine ⟨?_, ?_, ?_⟩
    · rw [hfst]
      exact h1
    · intro k'
      rw [hfst, List.map_append, List.mem_append]
      constructor
      · intro hin
        exact Or.inl ((h2 k').mp hin)
      · intro hin
        rcases hin with hl | hr
        · exact (h2 k').mpr hl
        · rw [List.map_singleton, List.mem_singleton] at hr
          rw [hr, ← hk]
          exact hkin
    · intro g hg
      rw [List.mem_map] at hg
      obtain ⟨p, hp, rfl⟩ := hg
      by_cases hp1 : (p.1 == k) = true
      · rw [if_pos hp1]
        dsimp only
        have hkey : (period_key rep t.due_date == p.1) = true := by
          rw [beq_iff_eq] at hp1 ⊢
          rw [← hk, hp1]
        rw [List.filter_append, ← h3 p hp, List.filter_singleton]
        rw [hkey]
        rfl
      · rw [if_neg hp1]
        have hkey : (period_key rep t.due_date == p.1) = false := by
          rw [beq_eq_false_iff_ne]
          intro heq
          apply hp1
          rw [beq_iff_eq, ← heq, hk]
        rw [List.filter_append, ← h3 p hp, List.filter_singleton]
        rw [hkey]
        simp
  · rw [if_neg hmem]
    have hknotin : k ∉ gs.map Prod.fst := by
      intro hin
      rw [List.mem_map] at hin
      obtain ⟨p, hp, hpk⟩ := hin
      apply hmem
      rw [List.any_eq_true]
      refine ⟨p, hp, ?_⟩
      rw [beq_iff_eq]
      exact hpk
    have hknotpre : k ∉ pre.map (fun u => period_key rep u.due_date) :=
      fun hin => hknotin ((h2 k).mpr hin)
    refine ⟨?_, ?_, ?_⟩
    · rw [List.map_append, List.nodup_append]
      refine ⟨h1, ?_, ?_⟩
      · rw [List.map_singleton]
        exact List.nodup_singleton _
      · intro a ha hb
        rw [List.map_singleton, List.mem_singleton] at hb
        dsimp only at hb
        rw [hb] at ha
        exact hknotin ha
    · intro k'
      rw [List.map_append, List.map_append, List.mem_append, List.mem_append,
        List.map_singleton, List.map_singleton, List.mem_singleton, List.mem_singleton]
      dsimp only
      constructor
      · rintro (hl | hl)
        · exact Or.inl ((h2 k').mp hl)
        · exact Or.inr (by rw [hl, hk])
      · rintro (hl | hl)
        · exact Or.inl ((h2 k').mpr hl)
        · exact Or.inr (by rw [hl, ← hk])
    · intro g hg
      rw [List.mem_append, List.mem_singleton] at hg
      rcases hg with hgin | rfl
      · have hne : (period_key rep t.due_date == g.1) = false := by
          rw [beq_eq_false_iff_ne]
          intro heq
          apply hknotin
          rw [hk, heq]
          exact List.mem_map.mpr ⟨g, hgin, rfl⟩
        rw [List.filter_append, ← h3 g hgin, List.filter_singleton]
        rw [hne]
        simp
      · dsimp only
        have hkey : (period_key rep t.due_date == k) = true := by
          rw [beq_iff_eq, hk]
        have hpre0 : pre.filter (fun u => period_key rep u.due_date == k) = [] := by
          rw [List.filter_eq_nil_iff]
          intro u hu hukey
          rw [beq_iff_eq] at hukey
          exact hknotpre (List.mem_map.mpr ⟨u, hu, hukey⟩)
        rw [List.filter_append, hpre0, List.nil_append, List.filter_singleton]
        rw [hkey]
        rfl

/-- The grouping fold of `Analytics._group_tasks_by_period` keeps the
invariants of `group_insert_spec` along an arbitrary prefix of processed
tasks. -/
theorem group_fold_spec (rep : String) :
    ∀ (ts : List TaskRow) (gs : List (Date × List TaskRow)) (pre : List TaskRow),
      (gs.map Prod.fst).Nodup →
      (∀ k, k ∈ gs.map Prod.fst ↔ k ∈ pre.map (fun u => period_key rep u.due_date)) →
      (∀ g ∈ gs, g.2 = pre.filter (fun u => period_key rep u.due_date == g.1)) →
      (((ts.foldl (fun gs t => group_insert gs (period_key rep t.due_date) t) gs).map
          Prod.fst).Nodup ∧
        (∀ k, k ∈ (ts.foldl (fun gs t => group_insert gs (period_key rep t.due_date) t)
            gs).map Prod.fst ↔
          k ∈ (pre ++ ts).map (fun u => period_key rep u.due_date)) ∧
        (∀ g ∈ ts.foldl (fun gs t => group_insert gs (period_key rep t.due_date) t) gs,
          g.2 = (pre ++ ts).filter (fun u => period_key rep u.due_date == g.1)))
  | [], gs, pre, h1, h2, h3 => by
    simp only [List.foldl_nil, List.append_nil]
    exact ⟨h1, h2, h3⟩
  | t :: ts, gs, pre, h1, h2, h3 => by
    simp only [List.foldl_cons]
    obtain ⟨g1, g2, g3⟩ :=
      group_insert_spec gs (period_key rep t.due_date) t pre rep rfl h1 h2 h3
    have hrec := group_fold_spec rep ts
      (group_insert gs (period_key rep t.due_date) t) (pre ++ [t]) g1 g2 g3
    simp only [List.append_assoc, List.singleton_append] at hrec
    exact hrec

/-- `_group_tasks_by_period` builds groups with pairwise distinct keys,
whose key set is exactly the set of period keys of the given tasks, each
group holding exactly the tasks with its key. -/
theorem group_tasks_by_period_spec (tasks : List TaskRow) (rep : String) :
    ((group_tasks_by_period tasks rep).map Prod.fst).Nodup ∧
      (∀ k, k ∈ (group_tasks_by_period tasks rep).map Prod.fst ↔
        k ∈ tasks.map (fun u => period_key rep u.due_date)) ∧
      (∀ g ∈ group_tasks_by_period tasks rep,
        g.2 = tasks.filter (fun u => period_key rep u.due_date == g.1)) := by
  have hbase := group_fold_spec rep tasks [] [] (by simp) (by simp)
    (by intro g hg; simp at hg)
  rw [List.nil_append] at hbase
  exact hbase

/-- Unfolding of `calculate_success_rate` when the habit exists. -/
theorem calculate_success_rate_some (db : DB) (hid : Nat) (h : HabitRow)
    (hf : findHabit db hid = some h) :
    calculate_success_rate db hid =
      (if (group_tasks_by_period (db.tasks.filter (fun t => t.habit_id == hid))
            h.repeat_).length = 0 then some RateResult.na
       else some (RateResult.pct (pyRound (max 0 (min 100
        ((((group_tasks_by_period (db.tasks.filter (fun t => t.habit_id == hid))
              h.repeat_).filter
            (fun g => g.2.all (fun t => t.status == "done"))).length : ℚ) /
         ((group_tasks_by_period (db.tasks.filter (fun t => t.habit_id == hid))
            h.repeat_).length : ℚ) * 100)))))) := by
  unfold calculate_success_rate
  rw [hf]

/-- `pyRound` returns either the floor or the floor plus one. -/
theorem pyRound_cases (q : ℚ) : pyRound q = ⌊q⌋ ∨ pyRound q = ⌊q⌋ + 1 := by
  unfold pyRound
  split_ifs <;> simp

/-- `pyRound` is the identity on integers. -/
theorem pyRound_intCast (z : ℤ) : pyRound ((z : ℤ) : ℚ) = z := by
  unfold pyRound
  rw [Int.floor_intCast]
  rw [if_pos (by norm_num)]

/-- `pyRound` of a nonnegative rational is nonnegative. -/
theorem pyRound_nonneg (q : ℚ) (hq : 0 ≤ q) : 0 ≤ pyRound q := by
  have hfl : 0 ≤ ⌊q⌋ := by
    rw [Int.le_floor]
    exact_mod_cast hq
  rcases pyRound_cases q with hc | hc <;> rw [hc] <;> omega

/-- `pyRound` of a rational at most 100 is at most 100. -/
theorem pyRound_le_hundred (q : ℚ) (hq : q ≤ 100) : pyRound q ≤ 100 := by
  have hfl : ⌊q⌋ ≤ 100 := by
    have := Int.floor_le_floor hq
    simpa using this
  unfold pyRound
  split_ifs with h1 h2 h3
  · exact hfl
  · have hlt : (⌊q⌋ : ℚ) < 100 := by linarith
    have hlt2 : ⌊q⌋ < 100 := by exact_mod_cast hlt
    omega
  · exact hfl
  · push_neg at h1 h2
    have hlt : (⌊q⌋ : ℚ) < 100 := by linarith
    have hlt2 : ⌊q⌋ < 100 := by exact_mod_cast hlt
    omega

/-- `pyRound` rounds to a nearest integer: its distance to the argument
is at most one half. -/
theorem pyRound_nearest (q : ℚ) : |(pyRound q : ℚ) - q| ≤ 1/2 := by
  have hfl := Int.floor_le q
  have hfu := Int.lt_floor_add_one q
  unfold pyRound
  split_ifs with h1 h2 h3
  · rw [abs_le]
    constructor <;> linarith
  · rw [abs_le]
    push_cast
    constructor <;> linarith
  · rw [abs_le]
    push_neg at h1 h2
    constructor <;> linarith
  · rw [abs_le]
    push_cast
    push_neg at h1 h2
    constructor <;> linarith

/-- Embedding of `AnalyticsController.calculate_success_rate`
(src/controllers/analytics.py 79-110).  It never consults the habit's
tasks: the rate is derived from the start date, today's date, the
recurrence and the reset counter alone.  `today` models
`datetime.now().date()`; the `streak` argument is accepted and ignored
exactly as in the source (it is only None-coalesced there).  The
possible occurrences are the days from start to today inclusive for
Daily and the rounded-up number of weeks for Weekly; any other
recurrence returns N/A, as does a start date in the future. -/
def ctrl_calculate_success_rate (today start : Date) (rep : String)
    (streak reset_count : Nat) : RateResult :=
  if dateLtb today start then RateResult.na
  else
    let days_passed : ℤ := (toOrdinal today : ℤ) - (toOrdinal start : ℤ) + 1
    let possible : Option ℤ :=
      if rep = "Daily" then some days_passed
      else if rep = "Weekly" then
        some (days_passed.fdiv 7 + (if days_passed.emod 7 > 0 then 1 else 0))
      else none
    match possible with
    | none => RateResult.na
    | some p =>
      if 0 < p then
        RateResult.pct (pyRound (max 0 (min 100
          (((p : ℚ) - (reset_count : ℚ)) / (p : ℚ) * 100))))
      else RateResult.pct 0

/-- The controller rate is N/A for a start date in the future. -/
theorem ctrl_rate_na_future (today start : Date) (rep : String) (st rc : Nat)
    (h : dateLtb today start = true) :
    ctrl_calculate_success_rate today start rep st rc = RateResult.na := by
  unfold ctrl_calculate_success_rate
  rw [if_pos h]

/-- The controller rate is N/A for a recurrence other than Daily or
Weekly. -/
theorem ctrl_rate_unknown (today start : Date) (rep : String) (st rc : Nat)
    (h : dateLtb today start = false) (h1 : ¬ rep = "Daily") (h2 : ¬ rep = "Weekly") :
    ctrl_calculate_success_rate today start rep st rc = RateResult.na := by
  unfold ctrl_calculate_success_rate
  have hne : ¬ dateLtb today start = true := by
    rw [h]
    exact Bool.false_ne_true
  rw [if_neg hne]
  dsimp only
  rw [if_neg h1, if_neg h2]

/-- The controller rate for Daily with a positive day count. -/
theorem ctrl_rate_daily (today start : Date) (st rc : Nat) (p : ℤ)
    (h : dateLtb today start = false)
    (hp : p = (toOrdinal today : ℤ) - (toOrdinal start : ℤ) + 1)
    (hpos : 0 < p) :
    ctrl_calculate_success_rate today start "Daily" st rc =
      RateResult.pct (pyRound (max 0 (min 100
        (((p : ℚ) - (rc : ℚ)) / (p : ℚ) * 100)))) := by
  unfold ctrl_calculate_success_rate
  have hne : ¬ dateLtb today start = true := by
    rw [h]
    exact Bool.false_ne_true
  rw [if_neg hne]
  dsimp only
  rw [if_pos rfl]
  dsimp only
  rw [← hp, if_pos hpos]

/-- The controller rate for Weekly with a positive week count. -/
theorem ctrl_rate_weekly (today start : Date) (st rc : Nat) (p : ℤ)
    (h : dateLtb today start = false)
    (hp : p = ((toOrdinal today : ℤ) - (toOrdinal start : ℤ) + 1).fdiv 7 +
      (if ((toOrdinal today : ℤ) - (toOrdinal start : ℤ) + 1).emod 7 > 0
        then 1 else 0))
    (hpos : 0 < p) :
    ctrl_calculate_success_rate today start "Weekly" st rc =
      RateResult.pct (pyRound (max 0 (min 100
        (((p : ℚ) - (rc : ℚ)) / (p : ℚ) * 100)))) := by
  unfold ctrl_calculate_success_rate
  have hne : ¬ dateLtb today start = true := by
    rw [h]
    exact Bool.false_ne_true
  rw [if_neg hne]
  dsimp only
  rw [if_neg (by decide : ¬ ("Weekly" = "Daily")), if_pos rfl]
  dsimp only
  rw [← hp, if_pos hpos]

/-- For Daily with a non-future start the controller always answers with
a percentage, never N/A. -/
theorem ctrl_rate_daily_pct (today start : Date) (st rc : Nat)
    (h : dateLtb today start = false) :
    ∃ z : ℤ, ctrl_calculate_success_rate today start "Daily" st rc = RateResult.pct z := by
  by_cases hpos : 0 < (toOrdinal today : ℤ) - (toOrdinal start : ℤ) + 1
  · exact ⟨_, ctrl_rate_daily today start st rc _ h rfl hpos⟩
  · refine ⟨0, ?_⟩
    unfold ctrl_calculate_success_rate
    have hne : ¬ dateLtb today start = true := by
      rw [h]
      exact Bool.false_ne_true
    rw [if_neg hne]
    dsimp only
    rw [if_pos rfl]
    dsimp only
    rw [if_neg hpos]

/-- For Weekly with a non-future start the controller always answers
with a percentage, never N/A. -/
theorem ctrl_rate_weekly_pct (today start : Date) (st rc : Nat)
    (h : dateLtb today start = false) :
    ∃ z : ℤ, ctrl_calculate_success_rate today start "Weekly" st rc = RateResult.pct z := by
  by_cases hpos : 0 < ((toOrdinal today : ℤ) - (toOrdinal start : ℤ) + 1).fdiv 7 +
      (if ((toOrdinal today : ℤ) - (toOrdinal start : ℤ) + 1).emod 7 > 0
        then 1 else 0)
  · exact ⟨_, ctrl_rate_weekly today start st rc _ h rfl hpos⟩
  · refine ⟨0, ?_⟩
    unfold ctrl_calculate_success_rate
    have hne : ¬ dateLtb today start = true := by
      rw [h]
      exact Bool.false_ne_true
    rw [if_neg hne]
    dsimp only
    rw [if_neg (by decide : ¬ ("Weekly" = "Daily")), if_pos rfl]
    dsimp only
    rw [if_neg hpos]

/-- C8 (amended): the model-level `Analytics.calculate_success_rate`
groups the habit's tasks into periods keyed by `period_key` (the due date
for Daily, the Monday of the due date's week for Weekly): the group list
has pairwise distinct keys, its keys are exactly the period keys
occurring among the habit's tasks, and each group holds exactly the
habit's tasks with that key.  The result is N/A exactly when there are
zero periods (equivalently, the habit has no tasks); otherwise it is the
number of all-done periods divided by the total number of periods as a
percentage, rounded to the nearest integer, the clamp to [0, 100] never
changing the value, which already lies in that interval together with
the rounded result.  But the also-cited
`AnalyticsController.calculate_success_rate` never groups or even reads
the habit's tasks: it answers N/A exactly when the start date is in the
future or the recurrence is neither Daily nor Weekly — not when there
are zero periods — and otherwise derives the percentage from the
possible occurrences between start date and today and the habit's reset
counter alone. -/
theorem c8_success_rate (db : DB) (hid : Nat) (h : HabitRow)
    (tasks : List TaskRow) (keys : List Date)
    (hf : findHabit db hid = some h)
    (ht : tasks = db.tasks.filter (fun t => t.habit_id == hid))
    (hk : keys = spec_period_keys tasks h.repeat_) :
    (((group_tasks_by_period tasks h.repeat_).map Prod.fst).Nodup ∧
      (∀ k, k ∈ (group_tasks_by_period tasks h.repeat_).map Prod.fst ↔
        k ∈ tasks.map (fun u => period_key h.repeat_ u.due_date)) ∧
      (∀ g ∈ group_tasks_by_period tasks h.repeat_,
        g.2 = tasks.filter (fun u => period_key h.repeat_ u.due_date == g.1))) ∧
    (keys = [] ↔ tasks = []) ∧
    (calculate_success_rate db hid = some RateResult.na ↔ keys = []) ∧
    (∀ q : ℚ, keys ≠ [] →
      q = ((keys.filter (period_all_done tasks h.repeat_)).length : ℚ) /
          (keys.length : ℚ) * 100 →
      calculate_success_rate db hid = some (RateResult.pct (pyRound q)) ∧
      0 ≤ q ∧ q ≤ 100 ∧ 0 ≤ pyRound q ∧ pyRound q ≤ 100 ∧
      |(pyRound q : ℚ) - q| ≤ 1/2) ∧
    (∀ (today : Date) (st rc : Nat),
      ctrl_calculate_success_rate today h.start h.repeat_ st rc = RateResult.na ↔
        (dateLtb today h.start = true ∨
          (¬ h.repeat_ = "Daily" ∧ ¬ h.repeat_ = "Weekly"))) ∧
    (∀ (today : Date) (st rc : Nat) (p : ℤ),
      dateLtb today h.start = false → h.repeat_ = "Daily" →
      p = (toOrdinal today : ℤ) - (toOrdinal h.start : ℤ) + 1 → 0 < p →
      ctrl_calculate_success_rate today h.start h.repeat_ st rc =
        RateResult.pct (pyRound (max 0 (min 100
          (((p : ℚ) - (rc : ℚ)) / (p : ℚ) * 100))))) ∧
    (∀ (today : Date) (st rc : Nat) (p : ℤ),
      dateLtb today h.start = false → h.repeat_ = "Weekly" →
      p = ((toOrdinal today : ℤ) - (toOrdinal h.start : ℤ) + 1).fdiv 7 +
        (if ((toOrdinal today : ℤ) - (toOrdinal h.start : ℤ) + 1).emod 7 > 0
          then 1 else 0) → 0 < p →
      ctrl_calculate_success_rate today h.start h.repeat_ st rc =
        RateResult.pct (pyRound (max 0 (min 100
          (((p : ℚ) - (rc : ℚ)) / (p : ℚ) * 100))))) := by
  obtain ⟨hnd, hmem, hgrp⟩ := group_tasks_by_period_spec tasks h.repeat_
  have hperm : ((group_tasks_by_period tasks h.repeat_).map Prod.fst).Perm keys := by
    rw [hk]
    refine (List.perm_ext_iff_of_nodup hnd (List.nodup_dedup _)).mpr ?_
    intro k
    rw [List.mem_dedup]
    exact hmem k
  have hlen : (group_tasks_by_period tasks h.repeat_).length = keys.length := by
    calc (group_tasks_by_period tasks h.repeat_).length
        = ((group_tasks_by_period tasks h.repeat_).map Prod.fst).length :=
          (List.length_map _ _).symm
      _ = keys.length := hperm.length_eq
  have hsucc : ((group_tasks_by_period tasks h.repeat_).filter
      (fun g => g.2.all (fun t => t.status == "done"))).length
      = (keys.filter (period_all_done tasks h.repeat_)).length := by
    have e1 : (group_tasks_by_period tasks h.repeat_).filter
        (fun g => g.2.all (fun t => t.status == "done"))
        = (group_tasks_by_period tasks h.repeat_).filter
          (fun g => period_all_done tasks h.repeat_ g.1) := by
      apply List.filter_congr
      intro g hg
      rw [hgrp g hg]
      rfl
    have e2 : ((group_tasks_by_period tasks h.repeat_).filter
        (fun g => period_all_done tasks h.repeat_ g.1)).length
        = (((group_tasks_by_period tasks h.repeat_).map Prod.fst).filter
          (period_all_done tasks h.repeat_)).length := by
      rw [List.filter_map Prod.fst (group_tasks_by_period tasks h.repeat_),
        List.length_map]
      rfl
    have e3 : (((group_tasks_by_period tasks h.repeat_).map Prod.fst).filter
        (period_all_done tasks h.repeat_)).length
        = (keys.filter (period_all_done tasks h.repeat_)).length :=
      (hperm.filter _).length_eq
    rw [e1, e2, e3]
  refine ⟨⟨hnd, hmem, hgrp⟩, ?_, ?_, ?_, ?_, ?_, ?_⟩
  · rw [hk]
    unfold spec_period_keys
    rw [List.dedup_eq_nil, List.map_eq_nil_iff]
  · rw [calculate_success_rate_some db hid h hf, ← ht]
    constructor
    · intro heq
      by_contra hne
      have h0 : ¬ ((group_tasks_by_period tasks h.repeat_).length = 0) := by
        rw [hlen]
        intro hz
        exact hne (List.length_eq_zero.mp hz)
      rw [if_neg h0] at heq
      simp at heq
    · intro heq
      have h0 : (group_tasks_by_period tasks h.repeat_).length = 0 := by
        rw [hlen, heq]
        rfl
      rw [if_pos h0]
  · intro q hne hq
    have h0 : ¬ ((group_tasks_by_period tasks h.repeat_).length = 0) := by
      rw [hlen]
      intro hz
      exact hne (List.length_eq_zero.mp hz)
    have hqnn : 0 ≤ q := by
      rw [hq]
      positivity
    have hkpos : 0 < (keys.length : ℚ) := by
      have hp := List.length_pos.mpr hne
      exact_mod_cast hp
    have hfle : (keys.filter (period_all_done tasks h.repeat_)).length ≤ keys.length :=
      List.length_filter_le _ _
    have hq100 : q ≤ 100 := by
      rw [hq]
      have hdiv : ((keys.filter (period_all_done tasks h.repeat_)).length : ℚ) /
          (keys.length : ℚ) ≤ 1 := by
        rw [div_le_one hkpos]
        exact_mod_cast hfle
      nlinarith [hdiv]
    refine ⟨?_, hqnn, hq100, pyRound_nonneg q hqnn, pyRound_le_hundred q hq100,
      pyRound_nearest q⟩
    rw [calculate_success_rate_some db hid h hf, ← ht, if_neg h0]
    have hrate : (((group_tasks_by_period tasks h.repeat_).filter
        (fun g => g.2.all (fun t => t.status == "done"))).length : ℚ) /
        ((group_tasks_by_period tasks h.repeat_).length : ℚ) * 100 = q := by
      rw [hq, hsucc, hlen]
    rw [hrate, min_eq_right hq100, max_eq_right hqnn]
  · intro today st rc
    by_cases hfut : dateLtb today h.start = true
    · rw [ctrl_rate_na_future today h.start h.repeat_ st rc hfut]
      simp [hfut]
    · have hfut' : dateLtb today h.start = false := by
        cases hdb : dateLtb today h.start
        · rfl
        · exact absurd hdb hfut
      by_cases hd : h.repeat_ = "Daily"
      · rw [hd]
        obtain ⟨z, hz⟩ := ctrl_rate_daily_pct today h.start st rc hfut'
        rw [hz]
        simp [hfut', hd]
      · by_cases hw : h.repeat_ = "Weekly"
        · rw [hw]
          obtain ⟨z, hz⟩ := ctrl_rate_weekly_pct today h.start st rc hfut'
          rw [hz]
          simp [hfut', hw]
        · rw [ctrl_rate_unknown today h.start h.repeat_ st rc hfut' hd hw]
          simp [hfut', hd, hw]
  · intro today st rc p hfut hd hp hpos
    rw [hd]
    exact ctrl_rate_daily today h.start st rc p hfut hp hpos
  · intro today st rc p hfut hw hp hpos
    rw [hw]
    exact ctrl_rate_weekly today h.start st rc p hfut hp hpos

/-- A habit row for the C8 witness: "Read", one task per series, Daily. -/
def hrowC8 : HabitRow :=
  ⟨1, "Read", "Personal", "Read a book", ⟨2024, 1, 1⟩, none, "High", "Daily", 1,
    "Read 10 pages", 0, 0, 0⟩

/-- C8 witness store: habit 1 with two done tasks due 2024-01-01 and one
ignored task due 2024-01-02, so one of the two daily periods is fully
done. -/
def dbC8 : DB :=
  ⟨[hrowC8],
    [⟨1, 1, 1, "Read 10 pages", ⟨2024, 1, 1⟩, "done"⟩,
     ⟨2, 1, 2, "Summarise", ⟨2024, 1, 1⟩, "done"⟩,
     ⟨3, 1, 1, "Read 10 pages", ⟨2024, 1, 2⟩, "ignore"⟩], 2, 4⟩

/-- C8 witness store with no tasks at all for habit 1. -/
def dbC8na : DB := ⟨[hrowC8], [], 2, 1⟩

/-- C8 counterexample.  The claim says success_rate groups the habit's
tasks into periods, returns the all-done-period count over the period
count, and is N/A exactly when there are zero periods.  The cited
`AnalyticsController.calculate_success_rate` contradicts this: for habit
1 of `dbC8` (started 2024-01-01, Daily, reset counter 0) on 2024-01-02
it answers 100 although only one of the two task periods is all done
(the claimed rate is 50), and in the store `dbC8na`, where the habit has
zero periods, it still answers 100 rather than N/A — it never reads the
tasks at all. -/
theorem c8_counterexample :
    ((spec_period_keys (dbC8.tasks.filter (fun t => t.habit_id == 1))
        hrowC8.repeat_).filter
      (period_all_done (dbC8.tasks.filter (fun t => t.habit_id == 1))
        hrowC8.repeat_)).length = 1 ∧
    (spec_period_keys (dbC8.tasks.filter (fun t => t.habit_id == 1))
      hrowC8.repeat_).length = 2 ∧
    spec_period_keys (dbC8na.tasks.filter (fun t => t.habit_id == 1))
      hrowC8.repeat_ = [] ∧
    ctrl_calculate_success_rate ⟨2024, 1, 2⟩ hrowC8.start hrowC8.repeat_
      hrowC8.streak hrowC8.streak_reset_count = RateResult.pct 100 := by
  refine ⟨by decide, by decide, by decide, ?_⟩
  show ctrl_calculate_success_rate ⟨2024, 1, 2⟩ hrowC8.start "Daily"
    hrowC8.streak hrowC8.streak_reset_count = RateResult.pct 100
  have h4 := ctrl_rate_daily ⟨2024, 1, 2⟩ hrowC8.start hrowC8.streak
    hrowC8.streak_reset_count 2 (by decide) (by decide) (by decide)
  rw [h4]
  have e100 : max 0 (min 100 ((((2 : ℤ) : ℚ) - ((hrowC8.streak_reset_count : ℕ) : ℚ)) /
      ((2 : ℤ) : ℚ) * 100)) = ((100 : ℤ) : ℚ) := by
    norm_num [hrowC8]
  rw [e100, pyRound_intCast]

/-- C8 witness: on the concrete store one of two task periods is all
done, so the model-level success rate is 50; on the store without tasks
it is N/A; and the controller-level rate on 2024-01-02 is 100 for the
same habit parameters, regardless of either store. -/
theorem c8_success_rate_witness :
    calculate_success_rate dbC8 1 = some (RateResult.pct 50) ∧
    calculate_success_rate dbC8na 1 = some RateResult.na ∧
    ctrl_calculate_success_rate ⟨2024, 1, 3⟩ hrowC8.start hrowC8.repeat_
      hrowC8.streak hrowC8.streak_reset_count = RateResult.pct 100 := by
  have h1 := c8_success_rate dbC8 1 hrowC8 _ _ rfl rfl rfl
  have h2 := c8_success_rate dbC8na 1 hrowC8 _ _ rfl rfl rfl
  refine ⟨?_, ?_, ?_⟩
  · have h3 := h1.2.2.2.1 _ (by decide) rfl
    have hlenS : ((spec_period_keys (dbC8.tasks.filter (fun t => t.habit_id == 1))
        hrowC8.repeat_).filter
        (period_all_done (dbC8.tasks.filter (fun t => t.habit_id == 1))
          hrowC8.repeat_)).length = 1 := by decide
    have hlenT : (spec_period_keys (dbC8.tasks.filter (fun t => t.habit_id == 1))
        hrowC8.repeat_).length = 2 := by decide
    rw [h3.1, hlenS, hlenT]
    have e50 : ((1 : ℕ) : ℚ) / ((2 : ℕ) : ℚ) * 100 = ((50 : ℤ) : ℚ) := by
      push_cast
      norm_num
    rw [e50, pyRound_intCast]
  · exact h2.2.2.1.mpr (by decide)
  · have h4 := h1.2.2.2.2.2.1 ⟨2024, 1, 3⟩ hrowC8.streak hrowC8.streak_reset_count 3
      (by decide) rfl (by decide) (by decide)
    rw [h4]
    have e100 : max 0 (min 100 ((((3 : ℤ) : ℚ) - ((hrowC8.streak_reset_count : ℕ) : ℚ)) /
        ((3 : ℤ) : ℚ) * 100)) = ((100 : ℤ) : ℚ) := by
      norm_num [hrowC8]
    rw [e100, pyRound_intCast]

end HabitTracker
